import Mathlib

/-!
# The circular chart of `chart/src/chart.cpp`

A shallow embedding of the rotating ring gesture (`RotatingCircleItem`) and of
the chart scene builder and updater (`Chart`), followed by the properties
established about them.

Conventions of the embedding.

* `qreal`, `double` and `float` values are carried as rationals: arithmetic is
  exact, rounding is not modelled.  The one place where the source divides by a
  value that depends on its input, `RotatingCircleItem::angle`, is modelled over
  `FVal`, which adds the IEEE-754 special values, so that a division by zero
  yields what the hardware yields.
* `int` values are integers; a conversion from a floating value to `int`
  truncates towards zero.
* Objects reached through pointers are passed explicitly as values; a call that
  would dereference a missing object, index a list out of range or convert a
  non-finite value to `int` returns `none`.
-/

namespace Zodiac

/-! ## Floating values with the IEEE-754 special cases -/

/-- A floating value: not-a-number, minus or plus infinity, or a finite number.
Finite numbers are exact rationals and zero carries no sign (a difference of two
equal numbers is `+0` under the default rounding mode, and that is the only zero
the source divides by). -/
inductive FVal where
  | nan : FVal
  | ninf : FVal
  | pinf : FVal
  | fin (q : ℚ) : FVal
deriving DecidableEq

namespace FVal

/-- Unary minus. -/
def neg : FVal → FVal
  | nan => nan
  | ninf => pinf
  | pinf => ninf
  | fin q => fin (-q)

/-- Addition: `inf + (-inf)` is not a number. -/
def add : FVal → FVal → FVal
  | nan, _ => nan
  | _, nan => nan
  | fin a, fin b => fin (a + b)
  | pinf, ninf => nan
  | ninf, pinf => nan
  | pinf, _ => pinf
  | ninf, _ => ninf
  | fin _, pinf => pinf
  | fin _, ninf => ninf

/-- Subtraction. -/
def sub (a b : FVal) : FVal := a.add b.neg

/-- The infinity whose sign is that of `s` (zero counts as positive). -/
def infOfSign (s : ℚ) : FVal := if s < 0 then ninf else pinf

/-- The sign of a value that is not `nan`, as a rational. -/
def sign : FVal → ℚ
  | nan => 0
  | ninf => -1
  | pinf => 1
  | fin q => if q < 0 then -1 else if q = 0 then 0 else 1

/-- Multiplication: `inf * 0` is not a number. -/
def mul : FVal → FVal → FVal
  | nan, _ => nan
  | _, nan => nan
  | fin a, fin b => fin (a * b)
  | a, b => if a.sign * b.sign = 0 then nan else infOfSign (a.sign * b.sign)

/-- Division: `x / 0` is an infinity of the sign of `x` for `x ≠ 0`, and `0 / 0`
and `inf / inf` are not numbers. -/
def div : FVal → FVal → FVal
  | nan, _ => nan
  | _, nan => nan
  | fin a, fin b =>
      if b = 0 then (if a = 0 then nan else infOfSign a) else fin (a / b)
  | fin _, _ => fin 0
  | a, fin b => infOfSign (a.sign * (if b < 0 then -1 else 1))
  | _, _ => nan

/-- The comparison `a < b`; false as soon as one side is not a number. -/
def lt : FVal → FVal → Bool
  | nan, _ => false
  | _, nan => false
  | fin a, fin b => decide (a < b)
  | ninf, ninf => false
  | ninf, _ => true
  | _, ninf => false
  | pinf, _ => false
  | fin _, pinf => true

/-- The comparison `a > b`. -/
def gt (a b : FVal) : Bool := b.lt a

/-- The comparison `a <= b`; false as soon as one side is not a number. -/
def le : FVal → FVal → Bool
  | nan, _ => false
  | _, nan => false
  | a, b => !(b.lt a)

/-- Truncation of a rational towards zero. -/
def truncQ (q : ℚ) : ℤ := if 0 ≤ q then ⌊q⌋ else ⌈q⌉

/-- Conversion to `int`: truncation towards zero; undefined (`none`) for a value
that is not finite.  The range of `int` is not modelled: the only value
converted is an angle difference times 180. -/
def toInt : FVal → Option ℤ
  | fin q => some (truncQ q)
  | _ => none

/-- Membership in the half-open interval `[0, 360)`. -/
def inCircle (v : FVal) : Bool := (fin 0).le v && v.lt (fin 360)

end FVal

/-! ## Geometry and the data source -/

/-- A point with `qreal` coordinates. -/
structure QPointF where
  x : ℚ
  y : ℚ
deriving DecidableEq

/-- A line segment. -/
structure QLineF where
  p1 : QPointF
  p2 : QPointF
deriving DecidableEq

/-- A colour given by its red, green, blue and alpha components. -/
structure QColor where
  r : ℕ
  g : ℕ
  b : ℕ
  a : ℕ := 255
deriving DecidableEq

/-- A pen: a colour and a stroke width. -/
structure QPen where
  color : QColor
  width : ℤ := 1
deriving DecidableEq

/-- A date and time, as a count of seconds; `addSecs` moves it by whole seconds
and leaves any finer part alone. -/
abbrev QDateTime := ℤ

/-- The call `dt.addSecs(s)`. -/
def QDateTime.addSecs (dt : QDateTime) (s : ℤ) : QDateTime := dt + s

/-- The value of `atan` at plus infinity: the `double` nearest to pi / 2. -/
def halfPi : ℚ := 884279719003555 / 562949953421312

/-- The library function `atan` on a floating value.  Its values at finite
arguments are those of the parameter `atanFin`; the special cases are those of
IEEE-754 (C99 Annex F): `atan(±inf) = ±pi/2` and `atan(nan) = nan`. -/
def atan (atanFin : ℚ → ℚ) : FVal → FVal
  | FVal.nan => FVal.nan
  | FVal.pinf => FVal.fin halfPi
  | FVal.ninf => FVal.fin (-halfPi)
  | FVal.fin q => FVal.fin (atanFin q)

/-- A rational stand-in for `atan` on finite arguments, accurate to about 0.005
radians for arguments between -1 and 1; used to evaluate the gesture on concrete
pointer positions. -/
def atanApprox (r : ℚ) : ℚ := r / (1 + 7 / 25 * r * r)

/-- A rectangle with integer coordinates. -/
structure QRect where
  x : ℤ
  y : ℤ
  width : ℤ
  height : ℤ
deriving DecidableEq

/-- A rectangle with `qreal` coordinates. -/
structure QRectF where
  x : ℚ
  y : ℚ
  width : ℚ
  height : ℚ
deriving DecidableEq

/-- The call `rect.center()`. -/
def QRectF.center (r : QRectF) : QPointF := ⟨r.x + r.width / 2, r.y + r.height / 2⟩

/-- A font: family, point size and weight. -/
structure QFont where
  family : String
  size : ℕ
  bold : Bool := false
deriving DecidableEq

/-- Modelled from the spec: the string-keyed `userData` table carried by signs,
planets and aspect types of the data source (declared in Astroprocessor, outside
the sources at hand).  A key that is absent reads as the empty string. -/
abbrev UserData := List (String × String)

/-- The call `userData[key].toString()`. -/
def UserData.value (d : UserData) (key : String) : String := (d.lookup key).getD ""

/-- Modelled from the spec: a zodiac sign of the data source, with the fields the
chart reads (`A::ZodiacSign` is declared in Astroprocessor).  `fontChar` stands
for `userData["fontChar"].toInt()`. -/
structure ZodiacSign where
  name : String
  startAngle : ℚ
  endAngle : ℚ
  fontChar : ℕ := 0
  userData : UserData := []

/-- Modelled from the spec: the zodiac of the data source, an ordered list of
signs (`A::Zodiac` is declared in Astroprocessor). -/
structure ZodiacDef where
  signs : List ZodiacSign

/-- Modelled from the spec: the identity of a planet (`A::PlanetId`). -/
abbrev PlanetId := ℤ

/-- Modelled from the spec: a planet of the data source, with the fields the chart
reads (`A::Planet` is declared in Astroprocessor).  `eclipticPosX` stands for
`eclipticPos.x()`, `signName` for `sign->name` and `fontChar` for
`userData["fontChar"].toInt()`. -/
structure Planet where
  id : PlanetId
  name : String
  eclipticPosX : ℚ
  isReal : Bool := true
  signName : String := ""
  fontChar : ℕ := 0
  userData : UserData := []

/-- Modelled from the spec: the kind of an aspect (`asp.d`), carrying the
coarseness tag under the key `good` of its `userData`. -/
structure AspectType where
  name : String
  userData : UserData := []

/-- Modelled from the spec: an aspect between two planets of the data source
(`A::Aspect` is declared in Astroprocessor). -/
structure Aspect where
  d : AspectType
  planet1 : Planet
  planet2 : Planet

/-- Modelled from the spec: the twelve house cusps (`houses.cusp[0..11]`). -/
structure Houses where
  cusp : Fin 12 → ℚ

/-- Modelled from the spec: the horoscope snapshot exposed by the data source. -/
structure Horoscope where
  zodiac : ZodiacDef
  houses : Houses
  planets : List Planet
  aspects : List Aspect

/-- Modelled from the spec: the data source (`AstroFile`), with its emptiness
flag, its time value (`getGMT` and `setGMT`) and its horoscope. -/
structure AstroFile where
  isEmpty : Bool
  GMT : QDateTime
  horoscope : Horoscope

/-- Modelled from the spec: the bits of `AstroFile::Members`, the change bitset
carried by a change notification. -/
structure Members where
  GMT : Bool := false
  Timezone : Bool := false
  Location : Bool := false
  HouseSystem : Bool := false
  AspectLevel : Bool := false
  Zodiac : Bool := false
  other : Bool := false
deriving DecidableEq

/-- The value `AstroFile::All`: every bit set. -/
def Members.All : Members := ⟨true, true, true, true, true, true, true⟩

/-- The test of `fileUpdated` that lets `updateScene` run: one of the bits `GMT`,
`Timezone`, `Location`, `HouseSystem`, `AspectLevel` and `Zodiac` is set. -/
def Members.positional (m : Members) : Bool :=
  m.GMT || m.Timezone || m.Location || m.HouseSystem || m.AspectLevel || m.Zodiac

/-- Modelled from the spec: functions of Qt, of the C library and of Astroprocessor
that the chart calls and whose code is outside the sources at hand. -/
structure Lib where
  /-- The function `atan` on finite arguments. -/
  atanFin : ℚ → ℚ
  /-- The function `cos`. -/
  cos : ℚ → ℚ
  /-- The function `sin`. -/
  sin : ℚ → ℚ
  /-- The width of the bounding rectangle of a text in a font. -/
  textWidth : QFont → String → ℚ
  /-- The height of the bounding rectangle of a text in a font. -/
  textHeight : QFont → String → ℚ
  /-- The centre of `sceneBoundingRect()` for an unparented item with the given
  rotation (degrees) about the given origin and the given local centre. -/
  sceneCenter : ℚ → QPointF → QPointF → QPointF
  /-- The function `A::romanNum`. -/
  romanNum : ℕ → String
  /-- The name of `A::getSign(angle, zodiac)`. -/
  getSignName : ℚ → ZodiacDef → String
  /-- The function `A::zodiacPosition(angle, zodiac)`. -/
  zodiacPosition : ℚ → ZodiacDef → String
  /-- The function `A::zodiacPosition(planet, zodiac, A::HighPrecision)`. -/
  planetPosition : Planet → ZodiacDef → String
  /-- The function `A::houseNum(planet)`, printed. -/
  houseNum : Planet → String
  /-- The function `A::describeAspect`. -/
  describeAspect : Aspect → String

/-- A stand-in library on which the definitions can be evaluated: the
trigonometric functions are rational approximations, a glyph is as wide as the
point size of its font and 4 higher, and the texts are simple prints. -/
def Lib.sample : Lib where
  atanFin := atanApprox
  cos := fun r => 1 - r * r / 2
  sin := fun r => r - r * r * r / 6
  textWidth := fun f _ => f.size
  textHeight := fun f _ => f.size + 4
  sceneCenter := fun _ _ p => p
  romanNum := fun n => toString n
  getSignName := fun _ _ => ""
  zodiacPosition := fun _ _ => ""
  planetPosition := fun p _ => p.name
  houseNum := fun _ => "1"
  describeAspect := fun a => a.planet1.name ++ "-" ++ a.planet2.name

/-! ## Visual elements -/

/-- A line item of the scene (`QGraphicsLineItem`).  `handle` is the identity of
the object; `helpTag` is the string stored by `setHelpTag` (`data(0)`). -/
structure LineItem where
  handle : ℕ
  line : QLineF
  pen : QPen
  rotation : ℚ := 0
  toolTip : String := ""
  helpTag : Option String := none
deriving DecidableEq

/-- A text item of the scene (`QGraphicsSimpleTextItem`).  `width` and `height`
are those of its bounding rectangle, fixed by its text and font. -/
structure TextItem where
  handle : ℕ
  text : String
  font : QFont
  width : ℚ
  height : ℚ
  pos : QPointF := ⟨0, 0⟩
  rotation : ℚ := 0
  toolTip : String := ""
  helpTag : Option String := none
deriving DecidableEq

/-- An ellipse item of the scene (`QGraphicsEllipseItem`). -/
structure EllipseItem where
  handle : ℕ
  rect : QRectF
  pen : QPen
  transformOrigin : QPointF := ⟨0, 0⟩
  rotation : ℚ := 0
  toolTip : String := ""
  helpTag : Option String := none
deriving DecidableEq

/-- The call `item->moveBy(dx, dy)`. -/
def TextItem.moveBy (t : TextItem) (dx dy : ℚ) : TextItem :=
  { t with pos := ⟨t.pos.x + dx, t.pos.y + dy⟩ }

/-- The left edge of `boundingRect()` of an ellipse item: the rectangle widened by
half the pen width. -/
def EllipseItem.boundingRectX (e : EllipseItem) : ℚ := e.rect.x - (e.pen.width : ℚ) / 2

/-- The rotating ring (`RotatingCircleItem`).  `file` is the bound data source
(`none` for the null pointer), passed by value; `center` is
`boundingRect().center()`; `dragAngle` and `dragDT` are the drag origin. -/
structure RotatingCircleItem where
  handle : ℕ := 0
  file : Option AstroFile := none
  center : QPointF := ⟨0, 0⟩
  pen : QPen := ⟨⟨0, 0, 0, 255⟩, 1⟩
  rotation : ℚ := 0
  dragAngle : FVal := FVal.fin 0
  dragDT : QDateTime := 0

/-- The events that reach `sceneEvent`, with the positions they carry. -/
inductive QEvent where
  | GraphicsSceneMousePress (scenePos : QPointF) : QEvent
  | GraphicsSceneMouseMove (lastScenePos scenePos : QPointF) : QEvent
  | Other : QEvent

/-! ## The rotating ring gesture -/

namespace RotatingCircleItem

/-- Modelled from the spec: `setFile`, declared in `chart.h`, binds the data
source whose time the gesture reads and writes. -/
def setFile (it : RotatingCircleItem) (f : AstroFile) : RotatingCircleItem :=
  { it with file := some f }

/-- The method `RotatingCircleItem::angle`: the arctangent of the quotient of the
vertical and horizontal offsets from the centre, in degrees with 3.1416 for pi,
then the quadrant correction. -/
def angle (L : Lib) (it : RotatingCircleItem) (pos : QPointF) : FVal :=
  let center := it.center
  let ret := ((atan L.atanFin
      ((FVal.fin (pos.y - center.y)).div (FVal.fin (pos.x - center.x)))).mul
        (FVal.fin 180)).div (FVal.fin 3.1416)
  if pos.x > center.x then ret.add (FVal.fin 180)
  else if pos.y > center.y then ret.add (FVal.fin 360)
  else ret

/-- The test of `sceneEvent` for a move that turns over the seam at 0/360. -/
def crossesSeam (lastAngle newAngle : FVal) : Bool :=
  (lastAngle.lt (FVal.fin 10) && newAngle.gt (FVal.fin 350)) ||
  (newAngle.lt (FVal.fin 10) && lastAngle.gt (FVal.fin 350))

/-- The method `RotatingCircleItem::sceneEvent`: the returned flag and the ring
afterwards, or `none` when the number of seconds is not a finite value. -/
def sceneEvent (L : Lib) (it : RotatingCircleItem) (event : QEvent) :
    Option (Bool × RotatingCircleItem) :=
  match it.file with
  | none => some (false, it)
  | some file =>
    match event with
    | QEvent.GraphicsSceneMousePress scenePos =>
        some (true, { it with dragAngle := angle L it scenePos, dragDT := file.GMT })
    | QEvent.GraphicsSceneMouseMove lastPos newPos =>
        let lastAngle := angle L it lastPos
        let newAngle := angle L it newPos
        let it1 : RotatingCircleItem :=
          if crossesSeam lastAngle newAngle then
            { it with dragAngle := newAngle, dragDT := file.GMT }
          else it
        match ((newAngle.sub it1.dragAngle).mul (FVal.fin 180)).toInt with
        | none => none
        | some secs =>
            some (true, { it1 with file := some { file with GMT := it1.dragDT.addSecs secs } })
    | QEvent.Other => some (true, it)

/-- The time value of the bound data source, when there is one. -/
def time (it : RotatingCircleItem) : Option QDateTime := it.file.map (fun f => f.GMT)

end RotatingCircleItem

/-! ## The chart -/

/-- The two references for the rotation of the ring. -/
inductive CircleStart where
  | Start_Ascendent : CircleStart
  | Start_ZeroDegree : CircleStart
deriving DecidableEq

/-- Modelled from the spec: the settings object (`AppSettings`), reduced to the
seven options the chart reads from it. -/
structure AppSettings where
  circleStart : CircleStart
  clockwise : Bool
  zodiacWidth : ℤ
  cuspideLength : ℤ
  innerRadius : ℤ
  coloredZodiac : Bool
  zodiacDropShadow : Bool
deriving DecidableEq

/-- A sorted association list standing for a `QMap` keyed by planet identity. -/
abbrev QMap (α : Type) := List (PlanetId × α)

/-- The assignment `map[k] = v`: replaces the entry of `k` or inserts one at its
place in key order. -/
def QMap.insert {α : Type} (k : PlanetId) (v : α) : QMap α → QMap α
  | [] => [(k, v)]
  | (k1, v1) :: rest =>
    if k < k1 then (k, v) :: (k1, v1) :: rest
    else if k = k1 then (k, v) :: rest
    else (k1, v1) :: QMap.insert k v rest

/-- The entry of `k`, when there is one. -/
def QMap.find? {α : Type} (k : PlanetId) : QMap α → Option α
  | [] => none
  | (k1, v1) :: rest => if k = k1 then some v1 else QMap.find? k rest

/-- The state of a `Chart`.  The scene is the collection of the visual elements
listed here; `signBorders` and `circle` are elements the source reaches through
the scene or a bare pointer.  Brushes, opacity, stacking order, parent links, the
arrow of the first cuspide, the background and border ellipses, the gradient, the
drop shadow and the view transform are not tracked.  `nextHandle` numbers the
objects created so far. -/
structure Chart where
  file : AstroFile
  emptyScene : Bool := true
  mapRect : QRect := ⟨-250, -250, 500, 500⟩
  circleStart : CircleStart := CircleStart.Start_Ascendent
  clockwise : Bool := false
  zodiacWidth : ℤ := 37
  cuspideLength : ℤ := 33
  innerRadius : ℤ := 100
  coloredZodiac : Bool := true
  zodiacDropShadow : Bool := true
  circle : Option RotatingCircleItem := none
  cuspides : List LineItem := []
  cuspideLabels : List TextItem := []
  signBorders : List LineItem := []
  signIcons : List TextItem := []
  planets : QMap TextItem := []
  planetMarkers : QMap EllipseItem := []
  aspects : List LineItem := []
  aspectMarkers : List EllipseItem := []
  nextHandle : ℕ := 0

namespace Chart

/-- The method `Chart::normalPlanetPosX`. -/
def normalPlanetPosX (planet : TextItem) (marker : EllipseItem) : ℤ :=
  let indent : ℚ := 6
  FVal.truncQ (marker.boundingRectX - planet.width - indent)

/-- The table of pens built on the first call of `aspectPen`. -/
def pens : List (String × QPen) :=
  [("--", ⟨⟨207, 41, 33, 255⟩, 2⟩),
   ("-", ⟨⟨230, 155, 57, 255⟩, 2⟩),
   ("0", ⟨⟨15, 114, 248, 255⟩, 2⟩),
   ("+", ⟨⟨14, 162, 98, 255⟩, 2⟩),
   ("++", ⟨⟨77, 206, 113, 255⟩, 2⟩)]

/-- The pen the table holds for a tag, when it holds one. -/
def pensFind (tag : String) : Option QPen := pens.lookup tag

/-- The lookup of `Chart::aspectPen` for a tag: the pen of the tag when the table
contains it, the pen of the tag `0` otherwise. -/
def penOfTag (tag : String) : QPen :=
  match pensFind tag with
  | some pen => pen
  | none => (pensFind "0").getD ⟨⟨0, 0, 0, 255⟩, 1⟩

/-- The method `Chart::aspectPen`. -/
def aspectPen (asp : Aspect) : QPen := penOfTag (asp.d.userData.value "good")

/-! ### Building the scene -/

/-- The pen `penBorder` of `createScene`: black under a coloured zodiac. -/
def penBorder (c : Chart) : QPen :=
  if c.coloredZodiac then ⟨⟨0, 0, 0, 255⟩, 1⟩ else ⟨⟨50, 145, 240, 255⟩, 1⟩

/-- One round of the cuspide loop of `createScene`: the line of house `i` and its
label. -/
def addCuspide (L : Lib) (c : Chart) (i : ℕ) : Chart :=
  let penCusp : QPen := ⟨⟨227, 214, 202, 255⟩, 2⟩
  let penCusp0 : QPen := ⟨⟨250, 90, 58, 255⟩, 3⟩
  let penCusp10 : QPen := ⟨⟨210, 195, 150, 255⟩, 3⟩
  let penCircle : QPen := ⟨⟨227, 214, 202, 255⟩, 1⟩
  let font : QFont := ⟨"Times", 13, true⟩
  let p1 : QPointF := ⟨((-c.innerRadius - penCircle.width : ℤ) : ℚ), 0⟩
  let long : QPointF := ⟨(c.mapRect.x : ℚ) - (c.cuspideLength : ℚ) * 1.4, 0⟩
  let short : QPointF := ⟨((c.mapRect.x - c.cuspideLength : ℤ) : ℚ), 0⟩
  let line : LineItem :=
    if i = 0 then { handle := c.nextHandle, line := ⟨p1, long⟩, pen := penCusp0 }
    else if i = 9 then { handle := c.nextHandle, line := ⟨p1, long⟩, pen := penCusp10 }
    else { handle := c.nextHandle, line := ⟨p1, short⟩, pen := penCusp }
  let text := L.romanNum (i + 1)
  let label : TextItem :=
    { handle := c.nextHandle + 1, text := text, font := font,
      width := L.textWidth font text, height := L.textHeight font text,
      pos := ⟨((c.mapRect.x - c.cuspideLength + 5 : ℤ) : ℚ), 5⟩ }
  { c with cuspides := c.cuspides ++ [line],
           cuspideLabels := c.cuspideLabels ++ [label],
           nextHandle := c.nextHandle + 2 }

/-- The ring `createScene` creates: `new RotatingCircleItem(mapRect, penZodiac)`.
The constructor sets `file` to the null pointer and leaves the drag origin
without a value; the model starts it at 0. -/
def newCircle (c : Chart) : RotatingCircleItem :=
  let penZodiac : QPen := ⟨⟨31, 52, 93, 255⟩, c.zodiacWidth⟩
  let rect : QRectF := ⟨c.mapRect.x, c.mapRect.y, c.mapRect.width, c.mapRect.height⟩
  { handle := c.nextHandle, center := rect.center, pen := penZodiac }

/-- The screen angle, in radians, at which `createScene` draws the border of a
sign (the local `rad`). -/
def signRad (clockwise : Bool) (sign : ZodiacSign) : ℚ :=
  let rad : ℚ := -sign.startAngle * 3.1416 / 180
  if clockwise then 3.1416 - rad else rad

/-- The end angle of a sign after the correction of `createScene` for a sign that
wraps past 360. -/
def signEndAngle (sign : ZodiacSign) : ℚ :=
  if sign.startAngle > sign.endAngle then sign.endAngle + 360 else sign.endAngle

/-- The middle angle of a sign, in degrees, as `createScene` computes it. -/
def signMidAngle (sign : ZodiacSign) : ℚ :=
  sign.startAngle + (signEndAngle sign - sign.startAngle) / 2

/-- The screen angle, in radians, at which `createScene` places the glyph of a
sign (the local `rad_mid`). -/
def signRadMid (clockwise : Bool) (sign : ZodiacSign) : ℚ :=
  let rad_mid : ℚ := -(sign.startAngle + (signEndAngle sign - sign.startAngle) / 2) * 3.1416 / 180
  if clockwise then 3.1416 - rad_mid else rad_mid

/-- The border line `createScene` draws for a sign at screen angle `rad`. -/
def signBorderLine (L : Lib) (c : Chart) (rad : ℚ) : QLineF :=
  ⟨⟨(c.mapRect.x : ℚ) * L.cos rad, (c.mapRect.y : ℚ) * L.sin rad⟩,
   ⟨((c.mapRect.x + c.zodiacWidth : ℤ) : ℚ) * L.cos rad,
    ((c.mapRect.y + c.zodiacWidth : ℤ) : ℚ) * L.sin rad⟩⟩

/-- The position `createScene` gives to a sign glyph of the given size at screen
angle `rad_mid`; `zodiacWidth / 2` is an integer division. -/
def signIconPos (L : Lib) (c : Chart) (rad_mid width height : ℚ) : QPointF :=
  ⟨((c.mapRect.x + c.zodiacWidth.tdiv 2 : ℤ) : ℚ) * L.cos rad_mid - width / 2,
   ((c.mapRect.y + c.zodiacWidth.tdiv 2 : ℤ) : ℚ) * L.sin rad_mid - height / 2⟩

/-- One round of the sign loop of `createScene`: the border line of the sign and
its glyph. -/
def addSign (L : Lib) (c : Chart) (sign : ZodiacSign) : Chart :=
  let zodiacFont : QFont := ⟨"Almagest", 16, true⟩
  let rad := signRad c.clockwise sign
  let rad_mid := signRadMid c.clockwise sign
  let border : LineItem :=
    { handle := c.nextHandle, line := signBorderLine L c rad, pen := penBorder c }
  let ch := String.singleton (Char.ofNat sign.fontChar)
  let w := L.textWidth zodiacFont ch
  let h := L.textHeight zodiacFont ch
  let text : TextItem :=
    { handle := c.nextHandle + 1, text := ch, font := zodiacFont, width := w, height := h,
      pos := signIconPos L c rad_mid w h, helpTag := some sign.name }
  { c with signBorders := c.signBorders ++ [border],
           signIcons := c.signIcons ++ [text],
           nextHandle := c.nextHandle + 2 }

/-- One round of the planet loop of `createScene`: the glyph of the planet and
its marker. -/
def addPlanet (L : Lib) (ring : RotatingCircleItem) (c : Chart) (planet : Planet) : Chart :=
  let radius : ℤ := 4
  let penPlanetMarkers : QPen := ⟨⟨255, 255, 255, 255⟩, 1⟩
  let planetFont : QFont := ⟨"Almagest", 19, true⟩
  let planetFontSmall : QFont := ⟨"Almagest", 16, false⟩
  let font := if planet.isReal then planetFont else planetFontSmall
  let ch := String.singleton (Char.ofNat planet.fontChar)
  let text0 : TextItem :=
    { handle := c.nextHandle, text := ch, font := font,
      width := L.textWidth font ch, height := L.textHeight font ch }
  let marker0 : EllipseItem :=
    { handle := c.nextHandle + 1,
      rect := ⟨((-c.innerRadius - radius.tdiv 2 : ℤ) : ℚ), ((-radius.tdiv 2 : ℤ) : ℚ),
               (radius : ℚ), (radius : ℚ)⟩,
      pen := penPlanetMarkers }
  let text : TextItem :=
    { text0 with pos := ⟨(normalPlanetPosX text0 marker0 : ℚ), -text0.height / 2⟩ }
  let marker : EllipseItem := { marker0 with transformOrigin := ring.center }
  { c with planets := QMap.insert planet.id text c.planets,
           planetMarkers := QMap.insert planet.id marker c.planetMarkers,
           nextHandle := c.nextHandle + 2 }

/-- The method `Chart::createScene`: twelve cuspides with their labels, the ring,
one border and one glyph for each sign, one glyph and one marker for each planet;
then the flag `emptyScene` is lowered. -/
def createScene (L : Lib) (c : Chart) : Chart :=
  let c1 := (List.range 12).foldl (addCuspide L) c
  let ring := newCircle c1
  let c2 := { c1 with circle := some ring, nextHandle := c1.nextHandle + 1 }
  let c3 := c2.file.horoscope.zodiac.signs.foldl (addSign L) c2
  let c4 := c3.file.horoscope.planets.foldl (addPlanet L ring) c3
  { c4 with emptyScene := false }

/-- The method `Chart::clearScene`: the scene loses all its items and every list
of the chart is emptied. -/
def clearScene (c : Chart) : Chart :=
  { c with circle := none, signBorders := [],
           emptyScene := true,
           cuspides := [], cuspideLabels := [],
           planets := [], planetMarkers := [],
           aspects := [], aspectMarkers := [],
           signIcons := [] }

/-! ### Updating the scene -/

/-- The global rotation offset of `updateScene` (the local `rotate`): the first
house cusp or the start of the first sign, negated under a clockwise orientation;
`none` when the sign list is empty and its first entry is asked for. -/
def rotateOffset (c : Chart) : Option ℚ :=
  let r : Option ℚ :=
    if c.circleStart = CircleStart.Start_Ascendent then
      some (c.file.horoscope.houses.cusp 0)
    else
      (c.file.horoscope.zodiac.signs[0]?).map (fun s => s.startAngle)
  r.map (fun rotate => if c.clockwise then -rotate else rotate)

/-- One round of the house loop of `updateScene`, for house `i`; `none` when one
of the three lists has no entry `i`. -/
def updateCuspide (L : Lib) (rotate : ℚ) (c : Chart) (i : Fin 12) : Option Chart :=
  let cusp0 := c.file.horoscope.houses.cusp i
  let cusp := if c.clockwise then 180 - cusp0 else cusp0
  match c.cuspides[i.val]?, c.cuspideLabels[i.val]?, c.signIcons[i.val]? with
  | some line, some label, some icon =>
    let tag := L.romanNum (i.val + 1) ++ "+" ++
      L.getSignName cusp c.file.horoscope.zodiac
    let toolTip := "House " ++ L.romanNum (i.val + 1) ++ "\n" ++
      L.zodiacPosition cusp c.file.horoscope.zodiac
    some { c with
      cuspides := c.cuspides.set i.val
        { line with rotation := -cusp + rotate, helpTag := some tag, toolTip := toolTip },
      cuspideLabels := c.cuspideLabels.set i.val
        { label with rotation := cusp - rotate, helpTag := some tag, toolTip := toolTip },
      signIcons := c.signIcons.set i.val { icon with rotation := -rotate } }
  | _, _, _ => none

/-- The house loop of `updateScene` over the given indices. -/
def updateCuspides (L : Lib) (rotate : ℚ) : List (Fin 12) → Chart → Option Chart
  | [], c => some c
  | i :: rest, c =>
    match updateCuspide L rotate c i with
    | none => none
    | some c1 => updateCuspides L rotate rest c1

/-- The inner loop of `updateScene` that keeps planets apart: the glyphs of the
map are visited in key order up to the glyph itself, and each one whose rotation
is less than 10 away moves the glyph left by the width of that other glyph. -/
def avoidIntersection (planet : TextItem) : List TextItem → TextItem
  | [] => planet
  | other :: rest =>
    if other.handle = planet.handle then planet
    else if |planet.rotation - other.rotation| < 10 then
      avoidIntersection (planet.moveBy (-other.width) 0) rest
    else avoidIntersection planet rest

/-- The display angle of a planet in `updateScene` (the local `angle`). -/
def planetAngle (clockwise : Bool) (p : Planet) : ℚ :=
  if clockwise then 180 - p.eclipticPosX else p.eclipticPosX

/-- One round of the planet loop of `updateScene`; `none` when the planet has no
glyph or no marker. -/
def updatePlanet (L : Lib) (rotate : ℚ) (c : Chart) (p : Planet) : Option Chart :=
  match QMap.find? p.id c.planetMarkers, QMap.find? p.id c.planets with
  | some marker, some planet =>
    let angle := planetAngle c.clockwise p
    let planet1 : TextItem :=
      { planet with pos := ⟨(normalPlanetPosX planet marker : ℚ), planet.pos.y⟩,
                    rotation := angle - rotate }
    let marker1 : EllipseItem := { marker with rotation := rotate - angle }
    let planet2 := avoidIntersection planet1 (c.planets.map Prod.snd)
    let toolTip := p.name ++ " " ++ L.planetPosition p c.file.horoscope.zodiac ++ ", " ++
      L.houseNum p
    some { c with
      planets := QMap.insert p.id
        { planet2 with toolTip := toolTip, helpTag := some (p.name ++ "+" ++ p.signName) }
        c.planets,
      planetMarkers := QMap.insert p.id
        { marker1 with toolTip := toolTip, helpTag := some p.name } c.planetMarkers }
  | _, _ => none

/-- The planet loop of `updateScene`. -/
def updatePlanets (L : Lib) (rotate : ℚ) : List Planet → Chart → Option Chart
  | [], c => some c
  | p :: rest, c =>
    match updatePlanet L rotate c p with
    | none => none
    | some c1 => updatePlanets L rotate rest c1

/-- The centre of `sceneBoundingRect()` of a planet marker. -/
def markerCenter (L : Lib) (m : EllipseItem) : QPointF :=
  L.sceneCenter m.rotation m.transformOrigin m.rect.center

/-- The help tag `updateScene` gives to the line of an aspect. -/
def aspectTag (asp : Aspect) : String :=
  asp.d.name ++ "+" ++ asp.planet1.name ++ "+" ++ asp.planet2.name

/-- The segment `updateScene` computes for an aspect: from the centre of the marker
of its first planet to that of its second planet; `none` when a marker is
missing. -/
def aspectLine (L : Lib) (markers : QMap EllipseItem) (asp : Aspect) : Option QLineF :=
  match QMap.find? asp.planet1.id markers, QMap.find? asp.planet2.id markers with
  | some m1, some m2 => some ⟨markerCenter L m1, markerCenter L m2⟩
  | _, _ => none

/-- One round of the aspect loop of `updateScene`, for the aspect at index `i`:
the line is appended or reused, then its messages are assigned when the tool tip
differs; `none` when a marker is missing or the list has no entry `i`. -/
def updateAspect (L : Lib) (c : Chart) (i : ℕ) (asp : Aspect) : Option Chart :=
  match aspectLine L c.planetMarkers asp with
  | none => none
  | some line =>
    let c1 : Option Chart :=
      if i ≥ c.aspects.length then
        some { c with
          aspects := c.aspects ++ [{ handle := c.nextHandle, line := line, pen := aspectPen asp }],
          nextHandle := c.nextHandle + 1 }
      else
        (c.aspects[i]?).map (fun a =>
          { c with aspects := c.aspects.set i { a with line := line, pen := aspectPen asp } })
    match c1 with
    | none => none
    | some c1 =>
      let toolTip := L.describeAspect asp
      match c1.aspects[i]? with
      | none => none
      | some a =>
        if a.toolTip ≠ toolTip then
          some { c1 with
            aspects := c1.aspects.set i
              { a with toolTip := toolTip, helpTag := some (aspectTag asp) } }
        else some c1

/-- The aspect loop of `updateScene` from index `i` on; it returns the index
reached together with the chart. -/
def updateAspects (L : Lib) : ℕ → List Aspect → Chart → Option (ℕ × Chart)
  | i, [], c => some (i, c)
  | i, asp :: rest, c =>
    match updateAspect L c i asp with
    | none => none
    | some c1 => updateAspects L (i + 1) rest c1

/-- The closing loop of `updateScene`: while `i` differs from the number of lines
the last one is taken off; `none` when a line is taken off an empty list. -/
def removeUnused (i : ℕ) (aspects : List LineItem) : Option (List LineItem) :=
  if i = aspects.length then some aspects
  else
    match aspects with
    | [] => none
    | a :: rest => removeUnused i (a :: rest).dropLast
termination_by aspects.length
decreasing_by simp

/-- The aspect part of `updateScene`: the walk over the current aspect list
followed by the removal of the lines beyond the index reached. -/
def updateAspectLines (L : Lib) (asps : List Aspect) (c : Chart) : Option Chart :=
  match updateAspects L 0 asps c with
  | none => none
  | some (i, c1) =>
    match removeUnused i c1.aspects with
    | none => none
    | some rest => some { c1 with aspects := rest }

/-- The method `Chart::updateScene`: the rotation of the ring, the house loop,
the planet loop and the aspect part, in this order. -/
def updateScene (L : Lib) (c : Chart) : Option Chart :=
  match rotateOffset c, c.circle with
  | some rotate, some ring =>
    let c1 : Chart := { c with circle := some { ring with rotation := rotate } }
    match updateCuspides L rotate (List.finRange 12) c1 with
    | none => none
    | some c2 =>
      match updatePlanets L rotate c2.file.horoscope.planets c2 with
      | none => none
      | some c3 => updateAspectLines L c3.file.horoscope.aspects c3
  | _, _ => none

/-! ### Notifications and settings -/

/-- The call `circle->setFile(file())` of `fileUpdated`: the ring is bound to the
data source of the chart; `none` when there is no ring. -/
def bindFile (c : Chart) : Option Chart :=
  match c.circle with
  | none => none
  | some ring => some { c with circle := some (ring.setFile c.file) }

/-- The method `Chart::fileUpdated`. -/
def fileUpdated (L : Lib) (c : Chart) (members : Members) : Option Chart :=
  if c.file.isEmpty then some c
  else
    let c1 := if members.Zodiac then clearScene c else c
    let c2 := if c1.emptyScene then createScene L c1 else c1
    match bindFile c2 with
    | none => none
    | some c3 => if members.positional then updateScene L c3 else some c3

/-- The assignments of `applySettings`: the seven options are read from the
settings object. -/
def readSettings (c : Chart) (s : AppSettings) : Chart :=
  { c with circleStart := s.circleStart,
           clockwise := s.clockwise,
           zodiacWidth := s.zodiacWidth,
           cuspideLength := s.cuspideLength,
           innerRadius := s.innerRadius,
           coloredZodiac := s.coloredZodiac,
           zodiacDropShadow := s.zodiacDropShadow }

/-- The method `Chart::applySettings`. -/
def applySettings (L : Lib) (c : Chart) (s : AppSettings) : Option Chart :=
  let c1 := readSettings c s
  if !c1.emptyScene then fileUpdated L (clearScene c1) Members.All
  else some c1

/-! ### Auxiliary notions for the statements -/

/-- Two chart states with the same data source, map rectangle and settings. -/
def sameSetup (c c1 : Chart) : Prop :=
  c1.file = c.file ∧ c1.mapRect = c.mapRect ∧ c1.circleStart = c.circleStart ∧
  c1.clockwise = c.clockwise ∧ c1.zodiacWidth = c.zodiacWidth ∧
  c1.cuspideLength = c.cuspideLength ∧ c1.innerRadius = c.innerRadius ∧
  c1.coloredZodiac = c.coloredZodiac ∧ c1.zodiacDropShadow = c.zodiacDropShadow

/-- The total width of the glyphs of a list whose rotation is less than 10 away
from the given rotation. -/
def crowding (rotation : ℚ) (others : List TextItem) : ℚ :=
  ((others.filter (fun o => decide (|rotation - o.rotation| < 10))).map (fun o => o.width)).sum

/-- The scene holds everything `updateScene` reaches for: a rotation offset, a
ring, twelve cuspides, labels and sign glyphs, a glyph and a marker for every
planet of the data source, and a marker for both planets of every aspect. -/
def ready (c : Chart) : Prop :=
  (rotateOffset c).isSome = true ∧ c.circle.isSome = true ∧
  12 ≤ c.cuspides.length ∧ 12 ≤ c.cuspideLabels.length ∧ 12 ≤ c.signIcons.length ∧
  (∀ p ∈ c.file.horoscope.planets,
    (QMap.find? p.id c.planets).isSome = true ∧
    (QMap.find? p.id c.planetMarkers).isSome = true) ∧
  (∀ asp ∈ c.file.horoscope.aspects,
    (QMap.find? asp.planet1.id c.planetMarkers).isSome = true ∧
    (QMap.find? asp.planet2.id c.planetMarkers).isSome = true)

/-- The data source is consistent with what the chart assumes of it: at least
twelve signs, and aspects between planets of its planet list. -/
def consistent (f : AstroFile) : Prop :=
  12 ≤ f.horoscope.zodiac.signs.length ∧
  (∀ asp ∈ f.horoscope.aspects,
    asp.planet1.id ∈ f.horoscope.planets.map (fun p => p.id) ∧
    asp.planet2.id ∈ f.horoscope.planets.map (fun p => p.id))

end Chart

/-! ## Sample data -/

/-- A sign of 30 degrees starting at `30 * i`. -/
def sampleSign (i : ℕ) : ZodiacSign :=
  { name := "sign", startAngle := 30 * i, endAngle := 30 * (i + 1) }

/-- Three planets: two close to each other, the second one drawn in the small
font, and a third one far away. -/
def samplePlanets : List Planet :=
  [{ id := 0, name := "Sun", eclipticPosX := 10 },
   { id := 1, name := "Node", eclipticPosX := 12, isReal := false },
   { id := 2, name := "Mars", eclipticPosX := 100 }]

/-- An aspect between two of the sample planets, with the given tag. -/
def sampleAspect (i j : ℕ) (tag : String) : Aspect :=
  { d := { name := "aspect", userData := [("good", tag)] },
    planet1 := samplePlanets.getD i { id := 0, name := "Sun", eclipticPosX := 10 },
    planet2 := samplePlanets.getD j { id := 0, name := "Sun", eclipticPosX := 10 } }

/-- A data source with twelve signs, three planets and three aspects. -/
def sampleFile : AstroFile :=
  { isEmpty := false, GMT := 1000,
    horoscope :=
      { zodiac := ⟨(List.range 12).map sampleSign⟩,
        houses := ⟨fun i => 30 * i.val + 5⟩,
        planets := samplePlanets,
        aspects := [sampleAspect 0 1 "0", sampleAspect 0 2 "+", sampleAspect 1 2 "--"] } }

/-- A ring bound to the sample data source. -/
def sampleRing : RotatingCircleItem := { file := some sampleFile }

/-- A chart on the sample data source, before any scene is built. -/
def sampleChart : Chart := { file := sampleFile }

/-- The sample chart with its scene built. -/
def builtChart : Chart := Chart.createScene Lib.sample sampleChart

/-- The sample chart on a zodiac of a single sign. -/
def oneSignChart : Chart :=
  { file := { sampleFile with
      horoscope := { sampleFile.horoscope with zodiac := ⟨[sampleSign 0]⟩ } } }

/-- Five aspects between the sample planets. -/
def fiveAspects : List Aspect :=
  [sampleAspect 0 1 "0", sampleAspect 0 2 "+", sampleAspect 1 2 "--",
   sampleAspect 1 0 "-", sampleAspect 2 0 "++"]

/-- Two aspects between the sample planets. -/
def twoAspects : List Aspect := [sampleAspect 2 1 "0", sampleAspect 1 0 "+"]

end Zodiac

namespace Zodiac

/-! ## Properties of the gesture -/

namespace RotatingCircleItem

theorem halfPi_deg_pos : (0 : ℚ) < halfPi * 180 / 3.1416 := by
  unfold halfPi; norm_num

/-- C1: on the vertical line through the centre `angle` leaves `[0, 360)`: above
the centre (larger `y`) it returns 360 plus the degrees of `atan(+inf)`, about
449.9998; at the centre it returns not-a-number; below the centre it returns the
degrees of `atan(-inf)`, about -89.9998. -/
theorem angle_on_vertical_line (L : Lib) (it : RotatingCircleItem) (y : ℚ) :
    angle L it ⟨it.center.x, y⟩ =
      (if y > it.center.y then FVal.fin (halfPi * 180 / 3.1416 + 360)
       else if y = it.center.y then FVal.nan
       else FVal.fin (-(halfPi * 180 / 3.1416))) ∧
    (angle L it ⟨it.center.x, y⟩).inCircle = false := by
  have h0 := halfPi_deg_pos
  have h3 : (3.1416 : ℚ) ≠ 0 := by norm_num
  rcases lt_trichotomy y it.center.y with h | h | h
  · have e : angle L it ⟨it.center.x, y⟩ = FVal.fin (-(halfPi * 180 / 3.1416)) := by
      have h1 : y - it.center.y < 0 := by linarith
      have h2 : y - it.center.y ≠ 0 := by linarith
      have h4 : ¬ (y > it.center.y) := by linarith
      simp [angle, FVal.div, atan, FVal.mul, FVal.infOfSign, h1, h2, h3, h4]
      ring
    have h4 : ¬ (y > it.center.y) := by linarith
    have h5 : ¬ (y = it.center.y) := by linarith
    rw [e]
    refine ⟨by simp [h4, h5], ?_⟩
    have : ¬ (halfPi * 180 / 3.1416 ≤ (0 : ℚ)) := by linarith
    simp [FVal.inCircle, FVal.le, FVal.lt, this]
  · subst h
    have e : angle L it ⟨it.center.x, it.center.y⟩ = FVal.nan := by
      simp [angle, FVal.div, atan, FVal.mul]
    rw [e]
    simp [FVal.inCircle, FVal.le]
  · have e : angle L it ⟨it.center.x, y⟩ = FVal.fin (halfPi * 180 / 3.1416 + 360) := by
      have h1 : ¬ (y - it.center.y < 0) := by linarith
      have h2 : y - it.center.y ≠ 0 := by linarith
      have h4 : it.center.y < y := h
      simp [angle, FVal.div, atan, FVal.mul, FVal.add, FVal.infOfSign, h1, h2, h3, h4]
    rw [e]
    refine ⟨by simp [h], ?_⟩
    have : ¬ (halfPi * 180 / 3.1416 + 360 < (360 : ℚ)) := by linarith
    simp [FVal.inCircle, FVal.le, FVal.lt, this]

theorem angle_cases (L : Lib) (it : RotatingCircleItem) (pos : QPointF) :
    angle L it pos = FVal.nan ∨ ∃ q, angle L it pos = FVal.fin q := by
  have h3 : (3.1416 : ℚ) ≠ 0 := by norm_num
  have key : ∀ v : FVal, (v = FVal.nan ∨ ∃ q, v = FVal.fin q) →
      ∀ k : ℚ, (v.add (FVal.fin k) = FVal.nan ∨ ∃ q, v.add (FVal.fin k) = FVal.fin q) := by
    intro v hv k
    rcases hv with hv | ⟨q, hv⟩ <;> subst hv <;> simp [FVal.add]
  have base : ∀ v : FVal, ((atan L.atanFin v).mul (FVal.fin 180)).div (FVal.fin 3.1416) = FVal.nan ∨
      ∃ q, ((atan L.atanFin v).mul (FVal.fin 180)).div (FVal.fin 3.1416) = FVal.fin q := by
    intro v
    cases v <;> simp [atan, FVal.mul, FVal.div, h3]
  unfold angle
  simp only []
  split_ifs
  · exact key _ (base _) _
  · exact key _ (base _) _
  · exact base _

theorem truncQ_zero : FVal.truncQ 0 = 0 := by
  simp [FVal.truncQ]

theorem crossesSeam_new_finite (a b : FVal) (h : crossesSeam a b = true) : b ≠ FVal.nan := by
  intro hb
  subst hb
  cases a <;> simp [crossesSeam, FVal.lt, FVal.gt] at h

/-- C3: a move that crosses the seam, on a ring with a bound data source, sets
the drag origin to the new angle and the current time of the data source, and the
time it writes is that current time, whatever the drag origin was before. -/
theorem seam_move_reanchors (L : Lib) (it : RotatingCircleItem) (f : AstroFile)
    (lastPos newPos : QPointF) (hfile : it.file = some f)
    (hseam : crossesSeam (angle L it lastPos) (angle L it newPos) = true) :
    ∃ it1, sceneEvent L it (QEvent.GraphicsSceneMouseMove lastPos newPos) = some (true, it1) ∧
      it1.dragAngle = angle L it newPos ∧ it1.dragDT = f.GMT ∧ it1.time = some f.GMT := by
  have hne := crossesSeam_new_finite _ _ hseam
  rcases angle_cases L it newPos with hn | ⟨q, hq⟩
  · exact absurd hn hne
  · rw [hq] at hseam
    simp [sceneEvent, hfile, hseam, hq, FVal.sub, FVal.neg, FVal.add, FVal.mul, FVal.toInt,
      truncQ_zero, QDateTime.addSecs, time]

end RotatingCircleItem
end Zodiac

namespace Zodiac
namespace RotatingCircleItem

/-- Off the vertical line through the centre, in exact arithmetic and for an
arctangent that keeps the sign of its argument and stays strictly between
-1.5708 and 1.5708, `angle` returns a number in `[0, 360)`. -/
theorem angle_off_vertical_line (L : Lib) (it : RotatingCircleItem) (pos : QPointF)
    (hx : pos.x ≠ it.center.x)
    (hbound : ∀ r, -1.5708 < L.atanFin r ∧ L.atanFin r < 1.5708)
    (hpos : ∀ r, 0 < r → 0 < L.atanFin r)
    (hneg : ∀ r, r < 0 → L.atanFin r < 0)
    (hzero : L.atanFin 0 = 0) :
    ∃ q, angle L it pos = FVal.fin q ∧ 0 ≤ q ∧ q < 360 := by
  have hd : pos.x - it.center.x ≠ 0 := sub_ne_zero.mpr hx
  have h3 : (3.1416 : ℚ) ≠ 0 := by norm_num
  obtain ⟨hlo, hhi⟩ := hbound ((pos.y - it.center.y) / (pos.x - it.center.x))
  have hlo' : -90 < L.atanFin ((pos.y - it.center.y) / (pos.x - it.center.x)) * 180 / 3.1416 := by
    rw [lt_div_iff₀ (by norm_num)]
    linarith
  have hhi' : L.atanFin ((pos.y - it.center.y) / (pos.x - it.center.x)) * 180 / 3.1416 < 90 := by
    rw [div_lt_iff₀ (by norm_num)]
    linarith
  by_cases h1 : pos.x > it.center.x
  · refine ⟨L.atanFin ((pos.y - it.center.y) / (pos.x - it.center.x)) * 180 / 3.1416 + 180,
      ?_, by linarith, by linarith⟩
    simp [angle, FVal.div, atan, FVal.mul, FVal.add, hd, h3, h1]
  · have hxlt : pos.x - it.center.x < 0 := by
      rcases lt_or_gt_of_ne hx with h | h
      · linarith
      · exact absurd h h1
    by_cases h2 : pos.y > it.center.y
    · have hr : (pos.y - it.center.y) / (pos.x - it.center.x) < 0 :=
        div_neg_of_pos_of_neg (by linarith) hxlt
      have ha := hneg _ hr
      have ha' : L.atanFin ((pos.y - it.center.y) / (pos.x - it.center.x)) * 180 / 3.1416 < 0 := by
        rw [div_lt_iff₀ (by norm_num)]
        linarith
      refine ⟨L.atanFin ((pos.y - it.center.y) / (pos.x - it.center.x)) * 180 / 3.1416 + 360,
        ?_, by linarith, by linarith⟩
      simp [angle, FVal.div, atan, FVal.mul, FVal.add, hd, h3, h1, h2]
    · have hyle : pos.y - it.center.y ≤ 0 := by linarith
      have ha' : 0 ≤ L.atanFin ((pos.y - it.center.y) / (pos.x - it.center.x)) * 180 / 3.1416 := by
        rcases eq_or_lt_of_le hyle with h0 | hlt
        · rw [h0, zero_div, hzero]
          norm_num
        · have hr : 0 < (pos.y - it.center.y) / (pos.x - it.center.x) :=
            div_pos_of_neg_of_neg hlt hxlt
          have ha := hpos _ hr
          rw [le_div_iff₀ (by norm_num)]
          linarith
      refine ⟨L.atanFin ((pos.y - it.center.y) / (pos.x - it.center.x)) * 180 / 3.1416,
        ?_, ha', by linarith⟩
      simp [angle, FVal.div, atan, FVal.mul, hd, h3, h1, h2]

end RotatingCircleItem
end Zodiac

namespace Zodiac
namespace Chart

/-! ## Properties of the pen table -/

theorem pensFind_none (tag : String) (h : tag ∉ ["--", "-", "0", "+", "++"]) :
    pensFind tag = none := by
  simp only [List.mem_cons, List.mem_singleton, List.not_mem_nil, or_false, not_or] at h
  obtain ⟨h1, h2, h3, h4, h5⟩ := h
  have b1 : (tag == "--") = false := by simpa using h1
  have b2 : (tag == "-") = false := by simpa using h2
  have b3 : (tag == "0") = false := by simpa using h3
  have b4 : (tag == "+") = false := by simpa using h4
  have b5 : (tag == "++") = false := by simpa using h5
  simp only [pensFind, pens, List.lookup, b1, b2, b3, b4, b5]

/-- C7: the five recognised tags have each their own pen, the five colours are
pairwise distinct, the five widths are 2, and an aspect whose tag is none of the
five (an absent tag reads as the empty string) gets the pen of the tag `0`. -/
theorem aspectPen_table (asp : Aspect)
    (h : asp.d.userData.value "good" ∉ ["--", "-", "0", "+", "++"]) :
    aspectPen asp = penOfTag "0" ∧
    (∀ a : Aspect, aspectPen a = penOfTag (a.d.userData.value "good")) ∧
    penOfTag "--" = ⟨⟨207, 41, 33, 255⟩, 2⟩ ∧
    penOfTag "-" = ⟨⟨230, 155, 57, 255⟩, 2⟩ ∧
    penOfTag "0" = ⟨⟨15, 114, 248, 255⟩, 2⟩ ∧
    penOfTag "+" = ⟨⟨14, 162, 98, 255⟩, 2⟩ ∧
    penOfTag "++" = ⟨⟨77, 206, 113, 255⟩, 2⟩ ∧
    (["--", "-", "0", "+", "++"].map (fun t => (penOfTag t).color)).Nodup ∧
    (∀ t ∈ ["--", "-", "0", "+", "++"], (penOfTag t).width = 2) := by
  have e1 : penOfTag "--" = ⟨⟨207, 41, 33, 255⟩, 2⟩ := by decide
  have e2 : penOfTag "-" = ⟨⟨230, 155, 57, 255⟩, 2⟩ := by decide
  have e3 : penOfTag "0" = ⟨⟨15, 114, 248, 255⟩, 2⟩ := by decide
  have e4 : penOfTag "+" = ⟨⟨14, 162, 98, 255⟩, 2⟩ := by decide
  have e5 : penOfTag "++" = ⟨⟨77, 206, 113, 255⟩, 2⟩ := by decide
  refine ⟨?_, fun a => rfl, e1, e2, e3, e4, e5, ?_, ?_⟩
  · have := pensFind_none _ h
    simp only [aspectPen]
    rw [penOfTag, this]
    rw [e3]
    decide
  · simp only [List.map, e1, e2, e3, e4, e5]
    decide
  · intro t ht
    simp only [List.mem_cons, List.mem_singleton, List.not_mem_nil, or_false] at ht
    rcases ht with rfl | rfl | rfl | rfl | rfl
    · rw [e1]
    · rw [e2]
    · rw [e3]
    · rw [e4]
    · rw [e5]

/-- The fallback of `aspectPen` on an aspect whose kind carries no tag. -/
theorem aspectPen_table_witness :
    (⟨⟨"conjunction", []⟩, ⟨0, "Sun", 0, true, "", 0, []⟩, ⟨1, "Moon", 0, true, "", 0, []⟩⟩ :
        Aspect).d.userData.value "good" ∉ ["--", "-", "0", "+", "++"] ∧
    aspectPen ⟨⟨"conjunction", []⟩, ⟨0, "Sun", 0, true, "", 0, []⟩, ⟨1, "Moon", 0, true, "", 0, []⟩⟩ =
      penOfTag "0" :=
  ⟨by decide, (aspectPen_table _ (by decide)).1⟩

end Chart
end Zodiac

namespace Zodiac
namespace Chart

/-! ## The builder -/

theorem sameSetup_refl (c : Chart) : sameSetup c c := by
  simp [sameSetup]

theorem sameSetup_trans {c c1 c2 : Chart} (h1 : sameSetup c c1) (h2 : sameSetup c1 c2) :
    sameSetup c c2 := by
  obtain ⟨a1, a2, a3, a4, a5, a6, a7, a8, a9⟩ := h1
  obtain ⟨b1, b2, b3, b4, b5, b6, b7, b8, b9⟩ := h2
  exact ⟨b1.trans a1, b2.trans a2, b3.trans a3, b4.trans a4, b5.trans a5, b6.trans a6,
    b7.trans a7, b8.trans a8, b9.trans a9⟩

theorem addCuspide_spec (L : Lib) (c : Chart) (i : ℕ) :
    sameSetup c (addCuspide L c i) ∧
    (addCuspide L c i).cuspides.length = c.cuspides.length + 1 ∧
    (addCuspide L c i).cuspideLabels.length = c.cuspideLabels.length + 1 ∧
    (addCuspide L c i).nextHandle = c.nextHandle + 2 ∧
    (addCuspide L c i).emptyScene = c.emptyScene ∧ (addCuspide L c i).circle = c.circle ∧
    (addCuspide L c i).signBorders = c.signBorders ∧ (addCuspide L c i).signIcons = c.signIcons ∧
    (addCuspide L c i).planets = c.planets ∧ (addCuspide L c i).planetMarkers = c.planetMarkers ∧
    (addCuspide L c i).aspects = c.aspects ∧ (addCuspide L c i).aspectMarkers = c.aspectMarkers := by
  simp [addCuspide, sameSetup]

theorem foldl_addCuspide (L : Lib) (is : List ℕ) (c : Chart) :
    sameSetup c (is.foldl (addCuspide L) c) ∧
    (is.foldl (addCuspide L) c).cuspides.length = c.cuspides.length + is.length ∧
    (is.foldl (addCuspide L) c).cuspideLabels.length = c.cuspideLabels.length + is.length ∧
    (is.foldl (addCuspide L) c).nextHandle = c.nextHandle + 2 * is.length ∧
    (is.foldl (addCuspide L) c).emptyScene = c.emptyScene ∧
    (is.foldl (addCuspide L) c).circle = c.circle ∧
    (is.foldl (addCuspide L) c).signBorders = c.signBorders ∧
    (is.foldl (addCuspide L) c).signIcons = c.signIcons ∧
    (is.foldl (addCuspide L) c).planets = c.planets ∧
    (is.foldl (addCuspide L) c).planetMarkers = c.planetMarkers ∧
    (is.foldl (addCuspide L) c).aspects = c.aspects ∧
    (is.foldl (addCuspide L) c).aspectMarkers = c.aspectMarkers := by
  induction is generalizing c with
  | nil => simp [sameSetup_refl]
  | cons i rest ih =>
    obtain ⟨a0, a1, a2, a3, a4, a5, a6, a7, a8, a9, a10, a11⟩ := ih (addCuspide L c i)
    obtain ⟨b0, b1, b2, b3, b4, b5, b6, b7, b8, b9, b10, b11⟩ := addCuspide_spec L c i
    simp only [List.foldl_cons, List.length_cons]
    refine ⟨sameSetup_trans b0 a0, ?_, ?_, ?_, a4.trans b4, a5.trans b5, a6.trans b6,
      a7.trans b7, a8.trans b8, a9.trans b9, a10.trans b10, a11.trans b11⟩
    · rw [a1, b1]; omega
    · rw [a2, b2]; omega
    · rw [a3, b3]; omega

theorem signBorderLine_congr (L : Lib) {c c1 : Chart} (h : sameSetup c c1) (rad : ℚ) :
    signBorderLine L c1 rad = signBorderLine L c rad := by
  obtain ⟨_, h2, _, _, h5, _⟩ := h
  simp [signBorderLine, h2, h5]

theorem signIconPos_congr (L : Lib) {c c1 : Chart} (h : sameSetup c c1) (rad w ht : ℚ) :
    signIconPos L c1 rad w ht = signIconPos L c rad w ht := by
  obtain ⟨_, h2, _, _, h5, _⟩ := h
  simp [signIconPos, h2, h5]

theorem addSign_spec (L : Lib) (c : Chart) (s : ZodiacSign) :
    sameSetup c (addSign L c s) ∧
    (addSign L c s).signBorders.map (fun b => b.line) =
      c.signBorders.map (fun b => b.line) ++ [signBorderLine L c (signRad c.clockwise s)] ∧
    (addSign L c s).signIcons.map (fun t => t.pos) = c.signIcons.map (fun t => t.pos) ++
      [signIconPos L c (signRadMid c.clockwise s)
        (L.textWidth ⟨"Almagest", 16, true⟩ (String.singleton (Char.ofNat s.fontChar)))
        (L.textHeight ⟨"Almagest", 16, true⟩ (String.singleton (Char.ofNat s.fontChar)))] ∧
    (addSign L c s).signIcons.length = c.signIcons.length + 1 ∧
    (addSign L c s).nextHandle = c.nextHandle + 2 ∧
    (addSign L c s).emptyScene = c.emptyScene ∧ (addSign L c s).circle = c.circle ∧
    (addSign L c s).cuspides = c.cuspides ∧ (addSign L c s).cuspideLabels = c.cuspideLabels ∧
    (addSign L c s).planets = c.planets ∧ (addSign L c s).planetMarkers = c.planetMarkers ∧
    (addSign L c s).aspects = c.aspects ∧ (addSign L c s).aspectMarkers = c.aspectMarkers := by
  simp [addSign, sameSetup]

theorem foldl_addSign (L : Lib) (signs : List ZodiacSign) (c : Chart) :
    sameSetup c (signs.foldl (addSign L) c) ∧
    (signs.foldl (addSign L) c).signBorders.map (fun b => b.line) =
      c.signBorders.map (fun b => b.line) ++
        signs.map (fun s => signBorderLine L c (signRad c.clockwise s)) ∧
    (signs.foldl (addSign L) c).signIcons.map (fun t => t.pos) =
      c.signIcons.map (fun t => t.pos) ++
        signs.map (fun s => signIconPos L c (signRadMid c.clockwise s)
          (L.textWidth ⟨"Almagest", 16, true⟩ (String.singleton (Char.ofNat s.fontChar)))
          (L.textHeight ⟨"Almagest", 16, true⟩ (String.singleton (Char.ofNat s.fontChar)))) ∧
    (signs.foldl (addSign L) c).signIcons.length = c.signIcons.length + signs.length ∧
    (signs.foldl (addSign L) c).nextHandle = c.nextHandle + 2 * signs.length ∧
    (signs.foldl (addSign L) c).emptyScene = c.emptyScene ∧
    (signs.foldl (addSign L) c).circle = c.circle ∧
    (signs.foldl (addSign L) c).cuspides = c.cuspides ∧
    (signs.foldl (addSign L) c).cuspideLabels = c.cuspideLabels ∧
    (signs.foldl (addSign L) c).planets = c.planets ∧
    (signs.foldl (addSign L) c).planetMarkers = c.planetMarkers ∧
    (signs.foldl (addSign L) c).aspects = c.aspects ∧
    (signs.foldl (addSign L) c).aspectMarkers = c.aspectMarkers := by
  induction signs generalizing c with
  | nil => simp [sameSetup_refl]
  | cons s rest ih =>
    obtain ⟨a0, a1, a2, a3, a4, a5, a6, a7, a8, a9, a10, a11, a12⟩ := ih (addSign L c s)
    obtain ⟨b0, b1, b2, b3, b4, b5, b6, b7, b8, b9, b10, b11, b12⟩ := addSign_spec L c s
    have hcw : (addSign L c s).clockwise = c.clockwise := b0.2.2.2.1
    simp only [List.foldl_cons, List.length_cons, List.map_cons]
    refine ⟨sameSetup_trans b0 a0, ?_, ?_, ?_, ?_, a5.trans b5, a6.trans b6,
      a7.trans b7, a8.trans b8, a9.trans b9, a10.trans b10, a11.trans b11, a12.trans b12⟩
    · rw [a1, b1, hcw]
      simp [signBorderLine_congr L b0]
    · rw [a2, b2, hcw]
      simp [signIconPos_congr L b0]
    · rw [a3, b3]; omega
    · rw [a4, b4]; omega

theorem QMap.find?_insert {α : Type} (k k1 : PlanetId) (v : α) (m : QMap α) :
    QMap.find? k1 (QMap.insert k v m) = if k1 = k then some v else QMap.find? k1 m := by
  induction m with
  | nil => simp [QMap.insert, QMap.find?]
  | cons e rest ih =>
    obtain ⟨k2, v2⟩ := e
    simp only [QMap.insert]
    by_cases hk : k1 = k
    · subst hk
      simp only [if_true]
      by_cases h1 : k1 < k2
      · simp [h1, QMap.find?]
      · by_cases h2 : k1 = k2
        · simp [h1, h2, QMap.find?]
        · simpa [h1, h2, QMap.find?] using ih
    · simp only [if_neg hk] at ih ⊢
      by_cases h1 : k < k2
      · simp [h1, QMap.find?, hk]
      · by_cases h2 : k = k2
        · subst h2
          simp [QMap.find?, hk]
        · simp [h1, h2, QMap.find?, ih]

theorem addPlanet_spec (L : Lib) (ring : RotatingCircleItem) (c : Chart) (p : Planet) :
    sameSetup c (addPlanet L ring c p) ∧
    (addPlanet L ring c p).nextHandle = c.nextHandle + 2 ∧
    (addPlanet L ring c p).emptyScene = c.emptyScene ∧
    (addPlanet L ring c p).circle = c.circle ∧
    (addPlanet L ring c p).cuspides = c.cuspides ∧
    (addPlanet L ring c p).cuspideLabels = c.cuspideLabels ∧
    (addPlanet L ring c p).signBorders = c.signBorders ∧
    (addPlanet L ring c p).signIcons = c.signIcons ∧
    (addPlanet L ring c p).aspects = c.aspects ∧
    (addPlanet L ring c p).aspectMarkers = c.aspectMarkers ∧
    (∀ k, (QMap.find? k (addPlanet L ring c p).planets).isSome =
      (decide (k = p.id) || (QMap.find? k c.planets).isSome)) ∧
    (∀ k, (QMap.find? k (addPlanet L ring c p).planetMarkers).isSome =
      (decide (k = p.id) || (QMap.find? k c.planetMarkers).isSome)) := by
  refine ⟨by simp [addPlanet, sameSetup], rfl, rfl, rfl, rfl, rfl, rfl, rfl, rfl, rfl, ?_, ?_⟩
  · intro k
    simp only [addPlanet, QMap.find?_insert]
    split_ifs with h <;> simp [h]
  · intro k
    simp only [addPlanet, QMap.find?_insert]
    split_ifs with h <;> simp [h]

theorem foldl_addPlanet (L : Lib) (ring : RotatingCircleItem) (ps : List Planet) (c : Chart) :
    sameSetup c (ps.foldl (addPlanet L ring) c) ∧
    (ps.foldl (addPlanet L ring) c).nextHandle = c.nextHandle + 2 * ps.length ∧
    (ps.foldl (addPlanet L ring) c).emptyScene = c.emptyScene ∧
    (ps.foldl (addPlanet L ring) c).circle = c.circle ∧
    (ps.foldl (addPlanet L ring) c).cuspides = c.cuspides ∧
    (ps.foldl (addPlanet L ring) c).cuspideLabels = c.cuspideLabels ∧
    (ps.foldl (addPlanet L ring) c).signBorders = c.signBorders ∧
    (ps.foldl (addPlanet L ring) c).signIcons = c.signIcons ∧
    (ps.foldl (addPlanet L ring) c).aspects = c.aspects ∧
    (ps.foldl (addPlanet L ring) c).aspectMarkers = c.aspectMarkers ∧
    (∀ k, (QMap.find? k (ps.foldl (addPlanet L ring) c).planets).isSome =
      (decide (k ∈ ps.map (fun p => p.id)) || (QMap.find? k c.planets).isSome)) ∧
    (∀ k, (QMap.find? k (ps.foldl (addPlanet L ring) c).planetMarkers).isSome =
      (decide (k ∈ ps.map (fun p => p.id)) || (QMap.find? k c.planetMarkers).isSome)) := by
  induction ps generalizing c with
  | nil => simp [sameSetup_refl]
  | cons p rest ih =>
    obtain ⟨a0, a1, a2, a3, a4, a5, a6, a7, a8, a9, a10, a11⟩ := ih (addPlanet L ring c p)
    obtain ⟨b0, b1, b2, b3, b4, b5, b6, b7, b8, b9, b10, b11⟩ := addPlanet_spec L ring c p
    simp only [List.foldl_cons, List.length_cons, List.map_cons]
    refine ⟨sameSetup_trans b0 a0, ?_, a2.trans b2, a3.trans b3, a4.trans b4, a5.trans b5,
      a6.trans b6, a7.trans b7, a8.trans b8, a9.trans b9, ?_, ?_⟩
    · rw [a1, b1]; omega
    · intro k
      rw [a10, b10]
      by_cases h1 : k = p.id <;> by_cases h2 : k ∈ rest.map (fun p => p.id) <;> simp [h1, h2]
    · intro k
      rw [a11, b11]
      by_cases h1 : k = p.id <;> by_cases h2 : k ∈ rest.map (fun p => p.id) <;> simp [h1, h2]

/-- What `createScene` leaves behind, field by field. -/
theorem createScene_spec (L : Lib) (c : Chart) :
    sameSetup c (createScene L c) ∧
    (createScene L c).emptyScene = false ∧
    (createScene L c).circle.isSome = true ∧
    (createScene L c).cuspides.length = c.cuspides.length + 12 ∧
    (createScene L c).cuspideLabels.length = c.cuspideLabels.length + 12 ∧
    (createScene L c).signIcons.length =
      c.signIcons.length + c.file.horoscope.zodiac.signs.length ∧
    (createScene L c).signBorders.map (fun b => b.line) =
      c.signBorders.map (fun b => b.line) ++
        c.file.horoscope.zodiac.signs.map (fun s => signBorderLine L c (signRad c.clockwise s)) ∧
    (createScene L c).signIcons.map (fun t => t.pos) =
      c.signIcons.map (fun t => t.pos) ++
        c.file.horoscope.zodiac.signs.map (fun s => signIconPos L c (signRadMid c.clockwise s)
          (L.textWidth ⟨"Almagest", 16, true⟩ (String.singleton (Char.ofNat s.fontChar)))
          (L.textHeight ⟨"Almagest", 16, true⟩ (String.singleton (Char.ofNat s.fontChar)))) ∧
    (createScene L c).aspects = c.aspects ∧
    (∀ k, (QMap.find? k (createScene L c).planets).isSome =
      (decide (k ∈ c.file.horoscope.planets.map (fun p => p.id)) ||
        (QMap.find? k c.planets).isSome)) ∧
    (∀ k, (QMap.find? k (createScene L c).planetMarkers).isSome =
      (decide (k ∈ c.file.horoscope.planets.map (fun p => p.id)) ||
        (QMap.find? k c.planetMarkers).isSome)) := by
  obtain ⟨a0, a1, a2, a3, a4, a5, a6, a7, a8, a9, a10, a11⟩ := foldl_addCuspide L (List.range 12) c
  generalize hc1 : (List.range 12).foldl (addCuspide L) c = c1 at *
  let c2 : Chart := { c1 with circle := some (newCircle c1), nextHandle := c1.nextHandle + 1 }
  have s12 : sameSetup c1 c2 := by simp [sameSetup, c2]
  obtain ⟨b0, b1, b2, b3, b4, b5, b6, b7, b8, b9, b10, b11, b12⟩ :=
    foldl_addSign L c2.file.horoscope.zodiac.signs c2
  generalize hc3 : c2.file.horoscope.zodiac.signs.foldl (addSign L) c2 = c3 at *
  obtain ⟨d0, d1, d2, d3, d4, d5, d6, d7, d8, d9, d10, d11⟩ :=
    foldl_addPlanet L (newCircle c1) c3.file.horoscope.planets c3
  generalize hc4 : c3.file.horoscope.planets.foldl (addPlanet L (newCircle c1)) c3 = c4 at *
  have hcs : createScene L c = { c4 with emptyScene := false } := by
    simp only [createScene, hc1]
    rw [← hc4, ← hc3]
  have s02 : sameSetup c c2 := sameSetup_trans a0 s12
  have s03 : sameSetup c c3 := sameSetup_trans s02 b0
  have s04 : sameSetup c c4 := sameSetup_trans s03 d0
  have f2 : c2.file = c.file := s02.1
  have f3 : c3.file = c.file := s03.1
  have cw2 : c2.clockwise = c.clockwise := s02.2.2.2.1
  rw [hcs]
  refine ⟨by simpa [sameSetup] using s04, rfl, ?_, ?_, ?_, ?_, ?_, ?_, ?_, ?_, ?_⟩
  · show c4.circle.isSome = true
    rw [d3, b6]
    rfl
  · show c4.cuspides.length = _
    rw [d4, b7]
    show c1.cuspides.length = _
    rw [a1]; simp
  · show c4.cuspideLabels.length = _
    rw [d5, b8]
    show c1.cuspideLabels.length = _
    rw [a2]; simp
  · show c4.signIcons.length = _
    rw [d7, b3, f2]
    show c1.signIcons.length + _ = _
    rw [a7]
  · show c4.signBorders.map _ = _
    rw [d6, b1, f2, cw2]
    show c1.signBorders.map _ ++ _ = _
    rw [a6]
    simp [signBorderLine_congr L s02]
  · show c4.signIcons.map _ = _
    rw [d7, b2, f2, cw2]
    show c1.signIcons.map _ ++ _ = _
    rw [a7]
    simp [signIconPos_congr L s02]
  · show c4.aspects = _
    rw [d8, b11]
    exact a10
  · intro k
    show (QMap.find? k c4.planets).isSome = _
    rw [d10, f3, b9]
    have e : c2.planets = c1.planets := rfl
    rw [e, a8]
  · intro k
    show (QMap.find? k c4.planetMarkers).isSome = _
    rw [d11, f3, b10]
    have e : c2.planetMarkers = c1.planetMarkers := rfl
    rw [e, a9]

end Chart
end Zodiac

namespace Zodiac
namespace Chart

/-! ## The updater: houses -/

theorem map_set_same {α β : Type} (f : α → β) (l : List α) (i : ℕ) (a b : α)
    (h : l[i]? = some a) (hf : f b = f a) : (l.set i b).map f = l.map f := by
  induction l generalizing i with
  | nil => simp
  | cons x rest ih =>
    cases i with
    | zero =>
      simp only [List.getElem?_cons_zero, Option.some.injEq] at h
      subst h
      simp [hf]
    | succ j =>
      simp only [List.getElem?_cons_succ] at h
      simp [ih j h]

theorem updateCuspide_some (L : Lib) (rotate : ℚ) (c : Chart) (i : Fin 12)
    (h1 : i.val < c.cuspides.length) (h2 : i.val < c.cuspideLabels.length)
    (h3 : i.val < c.signIcons.length) :
    ∃ c1, updateCuspide L rotate c i = some c1 ∧ sameSetup c c1 ∧
      c1.cuspides.map (fun x => x.handle) = c.cuspides.map (fun x => x.handle) ∧
      c1.cuspideLabels.map (fun x => x.handle) = c.cuspideLabels.map (fun x => x.handle) ∧
      c1.signIcons.map (fun x => x.handle) = c.signIcons.map (fun x => x.handle) ∧
      c1.circle = c.circle ∧ c1.planets = c.planets ∧ c1.planetMarkers = c.planetMarkers ∧
      c1.aspects = c.aspects ∧ c1.aspectMarkers = c.aspectMarkers ∧
      c1.signBorders = c.signBorders ∧ c1.emptyScene = c.emptyScene ∧
      c1.nextHandle = c.nextHandle := by
  have e1 : c.cuspides[i.val]? = some c.cuspides[i.val] := List.getElem?_eq_getElem h1
  have e2 : c.cuspideLabels[i.val]? = some c.cuspideLabels[i.val] := List.getElem?_eq_getElem h2
  have e3 : c.signIcons[i.val]? = some c.signIcons[i.val] := List.getElem?_eq_getElem h3
  simp only [updateCuspide, e1, e2, e3]
  refine ⟨_, rfl, by simp [sameSetup], ?_, ?_, ?_, rfl, rfl, rfl, rfl, rfl, rfl, rfl, rfl⟩
  · exact map_set_same _ _ _ _ _ e1 rfl
  · exact map_set_same _ _ _ _ _ e2 rfl
  · exact map_set_same _ _ _ _ _ e3 rfl

theorem updateCuspide_short (L : Lib) (rotate : ℚ) (c : Chart) (i : Fin 12)
    (h : c.signIcons.length ≤ i.val) : updateCuspide L rotate c i = none := by
  have e3 : c.signIcons[i.val]? = none := List.getElem?_eq_none h
  simp only [updateCuspide, e3]
  split <;> simp_all

theorem updateCuspide_length (L : Lib) (rotate : ℚ) (c c1 : Chart) (i : Fin 12)
    (h : updateCuspide L rotate c i = some c1) : c1.signIcons.length = c.signIcons.length := by
  simp only [updateCuspide] at h
  split at h
  · simp only [Option.some.injEq] at h
    subst h
    simp
  · simp at h

theorem updateCuspides_short (L : Lib) (rotate : ℚ) (is : List (Fin 12)) (c : Chart)
    (h : ∃ i ∈ is, c.signIcons.length ≤ i.val) : updateCuspides L rotate is c = none := by
  induction is generalizing c with
  | nil => simp at h
  | cons j rest ih =>
    simp only [updateCuspides]
    cases hj : updateCuspide L rotate c j with
    | none => rfl
    | some c1 =>
      simp only
      obtain ⟨i, hi, hlen⟩ := h
      rcases List.mem_cons.mp hi with rfl | hi
      · rw [updateCuspide_short L rotate c i hlen] at hj
        simp at hj
      · apply ih
        exact ⟨i, hi, by rw [updateCuspide_length L rotate c c1 j hj]; exact hlen⟩

theorem updateCuspides_some (L : Lib) (rotate : ℚ) (is : List (Fin 12)) (c : Chart)
    (h1 : 12 ≤ c.cuspides.length) (h2 : 12 ≤ c.cuspideLabels.length)
    (h3 : 12 ≤ c.signIcons.length) :
    ∃ c1, updateCuspides L rotate is c = some c1 ∧ sameSetup c c1 ∧
      c1.cuspides.map (fun x => x.handle) = c.cuspides.map (fun x => x.handle) ∧
      c1.cuspideLabels.map (fun x => x.handle) = c.cuspideLabels.map (fun x => x.handle) ∧
      c1.signIcons.map (fun x => x.handle) = c.signIcons.map (fun x => x.handle) ∧
      c1.circle = c.circle ∧ c1.planets = c.planets ∧ c1.planetMarkers = c.planetMarkers ∧
      c1.aspects = c.aspects ∧ c1.aspectMarkers = c.aspectMarkers ∧
      c1.signBorders = c.signBorders ∧ c1.emptyScene = c.emptyScene ∧
      c1.nextHandle = c.nextHandle := by
  induction is generalizing c with
  | nil => exact ⟨c, rfl, sameSetup_refl c, rfl, rfl, rfl, rfl, rfl, rfl, rfl, rfl, rfl, rfl, rfl⟩
  | cons j rest ih =>
    have hj := j.isLt
    obtain ⟨c1, e, a0, a1, a2, a3, a4, a5, a6, a7, a8, a9, a10, a11⟩ :=
      updateCuspide_some L rotate c j (by omega) (by omega) (by omega)
    have l1 : c1.cuspides.length = c.cuspides.length := by
      simpa using congrArg List.length a1
    have l2 : c1.cuspideLabels.length = c.cuspideLabels.length := by
      simpa using congrArg List.length a2
    have l3 : c1.signIcons.length = c.signIcons.length := by
      simpa using congrArg List.length a3
    obtain ⟨c2, e', b0, b1, b2, b3, b4, b5, b6, b7, b8, b9, b10, b11⟩ :=
      ih c1 (by omega) (by omega) (by omega)
    refine ⟨c2, by simp only [updateCuspides, e, e'], sameSetup_trans a0 b0, b1.trans a1,
      b2.trans a2, b3.trans a3, b4.trans a4, b5.trans a5, b6.trans a6, b7.trans a7,
      b8.trans a8, b9.trans a9, b10.trans a10, b11.trans a11⟩

end Chart
end Zodiac

namespace Zodiac
namespace Chart

/-! ## The updater: planets -/

theorem QMap.find?_append {α : Type} (k : PlanetId) (pre rest : QMap α)
    (h : ∀ e ∈ pre, e.1 ≠ k) : QMap.find? k (pre ++ rest) = QMap.find? k rest := by
  induction pre with
  | nil => rfl
  | cons e pre ih =>
    obtain ⟨k1, v1⟩ := e
    have h1 : k ≠ k1 := fun hk => h (k1, v1) (List.mem_cons_self _ _) hk.symm
    simp only [List.cons_append, QMap.find?, if_neg h1, List.append_eq]
    exact ih (fun e he => h e (List.mem_cons_of_mem _ he))

theorem QMap.insert_append {α : Type} (k : PlanetId) (v : α) (pre rest : QMap α)
    (h : ∀ e ∈ pre, e.1 < k) : QMap.insert k v (pre ++ rest) = pre ++ QMap.insert k v rest := by
  induction pre with
  | nil => rfl
  | cons e pre ih =>
    obtain ⟨k1, v1⟩ := e
    have h1 : k1 < k := h (k1, v1) (List.mem_cons_self _ _)
    have h2 : ¬ k < k1 := not_lt.mpr (le_of_lt h1)
    have h3 : ¬ k = k1 := ne_of_gt h1
    simp only [List.cons_append, QMap.insert, if_neg h2, if_neg h3, List.append_eq]
    rw [ih (fun e he => h e (List.mem_cons_of_mem _ he))]

theorem QMap.insert_head {α : Type} (k : PlanetId) (v v0 : α) (rest : QMap α) :
    QMap.insert k v ((k, v0) :: rest) = (k, v) :: rest := by
  simp [QMap.insert]

theorem crowding_nil (r : ℚ) : crowding r [] = 0 := by
  simp [crowding]

theorem crowding_cons (r : ℚ) (o : TextItem) (rest : List TextItem) :
    crowding r (o :: rest) =
      (if |r - o.rotation| < 10 then o.width else 0) + crowding r rest := by
  unfold crowding
  by_cases h : |r - o.rotation| < 10
  · simp [List.filter_cons, h]
  · simp [List.filter_cons, h]

theorem crowding_append (r : ℚ) (l1 l2 : List TextItem) :
    crowding r (l1 ++ l2) = crowding r l1 + crowding r l2 := by
  simp [crowding, List.filter_append]

theorem avoidIntersection_prefix (pre rest : List TextItem) (g : TextItem)
    (hpre : ∀ o ∈ pre, o.handle ≠ g.handle)
    (hrest : ∀ o, rest.head? = some o → o.handle = g.handle) :
    avoidIntersection g (pre ++ rest) =
      { g with pos := ⟨g.pos.x - crowding g.rotation pre, g.pos.y⟩ } := by
  induction pre generalizing g with
  | nil =>
    cases rest with
    | nil => simp [avoidIntersection, crowding_nil]
    | cons o rest =>
      have := hrest o rfl
      simp [avoidIntersection, this, crowding_nil]
  | cons o pre ih =>
    have h1 : o.handle ≠ g.handle := hpre o (List.mem_cons_self _ _)
    have h2 : ∀ o1 ∈ pre, o1.handle ≠ g.handle := fun o1 ho1 => hpre o1 (List.mem_cons_of_mem _ ho1)
    simp only [List.cons_append, avoidIntersection, if_neg h1, crowding_cons, List.append_eq]
    by_cases h : |g.rotation - o.rotation| < 10
    · simp only [if_pos h]
      rw [ih (g.moveBy (-o.width) 0) h2 hrest]
      simp only [TextItem.moveBy]
      congr 1
      congr 1
      · ring
      · ring
    · simp only [if_neg h]
      rw [ih g h2 hrest]
      simp

theorem updatePlanet_step (L : Lib) (rotate : ℚ) (c : Chart) (p : Planet)
    (pre post : QMap TextItem) (g0 : TextItem) (m0 : EllipseItem)
    (hpl : c.planets = pre ++ (p.id, g0) :: post)
    (hkeys : ∀ e ∈ pre, e.1 < p.id)
    (hhand : ∀ e ∈ pre, e.2.handle ≠ g0.handle)
    (hm : QMap.find? p.id c.planetMarkers = some m0) :
    ∃ c1 g1 m1, updatePlanet L rotate c p = some c1 ∧
      c1.planets = pre ++ (p.id, g1) :: post ∧
      c1.planetMarkers = QMap.insert p.id m1 c.planetMarkers ∧
      sameSetup c c1 ∧ c1.circle = c.circle ∧ c1.cuspides = c.cuspides ∧
      c1.cuspideLabels = c.cuspideLabels ∧ c1.signBorders = c.signBorders ∧
      c1.signIcons = c.signIcons ∧ c1.aspects = c.aspects ∧
      c1.aspectMarkers = c.aspectMarkers ∧ c1.emptyScene = c.emptyScene ∧
      c1.nextHandle = c.nextHandle ∧
      g1.handle = g0.handle ∧ g1.width = g0.width ∧
      g1.rotation = planetAngle c.clockwise p - rotate ∧
      g1.pos.x = (normalPlanetPosX g0 m0 : ℚ) - crowding g1.rotation (pre.map Prod.snd) ∧
      m1.boundingRectX = m0.boundingRectX ∧ m1.handle = m0.handle := by
  have hne : ∀ e ∈ pre, e.1 ≠ p.id := fun e he => ne_of_lt (hkeys e he)
  have hf : QMap.find? p.id c.planets = some g0 := by
    rw [hpl, QMap.find?_append p.id pre _ hne]
    simp [QMap.find?]
  have hmap : c.planets.map Prod.snd = pre.map Prod.snd ++ g0 :: post.map Prod.snd := by
    rw [hpl]; simp
  have hav := avoidIntersection_prefix (pre.map Prod.snd) (g0 :: post.map Prod.snd)
    { g0 with pos := ⟨(normalPlanetPosX g0 m0 : ℚ), g0.pos.y⟩,
              rotation := planetAngle c.clockwise p - rotate }
    (by
      intro o ho
      obtain ⟨e, he, rfl⟩ := List.mem_map.mp ho
      exact hhand e he)
    (by
      intro o ho
      simp only [List.head?_cons, Option.some.injEq] at ho
      subst ho
      rfl)
  simp only [updatePlanet, hm, hf, hmap, hav]
  rw [hpl, QMap.insert_append p.id _ pre _ hkeys, QMap.insert_head]
  exact ⟨_, _, _, rfl, rfl, rfl, by simp [sameSetup], rfl, rfl, rfl, rfl, rfl, rfl, rfl, rfl,
    rfl, rfl, rfl, rfl, rfl, rfl, rfl⟩

theorem normalPlanetPosX_congr (g g1 : TextItem) (m m1 : EllipseItem)
    (hw : g1.width = g.width) (hb : m1.boundingRectX = m.boundingRectX) :
    normalPlanetPosX g1 m1 = normalPlanetPosX g m := by
  simp [normalPlanetPosX, hw, hb]

/-- The planet loop on a glyph map whose keys are the planet identities in
increasing order: every glyph ends at its normal position less the widths of the
glyphs before it that are less than 10 away in rotation. -/
theorem updatePlanets_layout (L : Lib) (rotate : ℚ) (ps : List Planet) :
    ∀ (c : Chart) (pre post : QMap TextItem),
      c.planets = pre ++ post →
      post.map Prod.fst = ps.map (fun p => p.id) →
      ((pre ++ post).map Prod.fst).Pairwise (fun a b => a < b) →
      ((pre ++ post).map (fun e => e.2.handle)).Nodup →
      (∀ p ∈ ps, (QMap.find? p.id c.planetMarkers).isSome = true) →
      ∃ c1 post1, updatePlanets L rotate ps c = some c1 ∧
        c1.planets = pre ++ post1 ∧
        post1.map Prod.fst = ps.map (fun p => p.id) ∧
        post1.map (fun e => (e.2.handle, e.2.width)) =
          post.map (fun e => (e.2.handle, e.2.width)) ∧
        (∀ k, (QMap.find? k c1.planetMarkers).map (fun m => (m.boundingRectX, m.handle)) =
          (QMap.find? k c.planetMarkers).map (fun m => (m.boundingRectX, m.handle))) ∧
        (∀ (j : ℕ) (p : Planet) (e : PlanetId × TextItem), ps[j]? = some p → post1[j]? = some e →
          ∃ m, QMap.find? p.id c1.planetMarkers = some m ∧
            e.2.rotation = planetAngle c.clockwise p - rotate ∧
            e.2.pos.x = (normalPlanetPosX e.2 m : ℚ) -
              crowding e.2.rotation ((pre ++ post1.take j).map Prod.snd)) ∧
        sameSetup c c1 ∧ c1.circle = c.circle ∧ c1.cuspides = c.cuspides ∧
        c1.cuspideLabels = c.cuspideLabels ∧ c1.signBorders = c.signBorders ∧
        c1.signIcons = c.signIcons ∧ c1.aspects = c.aspects ∧
        c1.aspectMarkers = c.aspectMarkers ∧ c1.emptyScene = c.emptyScene ∧
        c1.nextHandle = c.nextHandle := by
  induction ps with
  | nil =>
    intro c pre post hpl hkeys _ _ _
    have hpost : post = [] := by simpa using hkeys
    subst hpost
    refine ⟨c, [], rfl, hpl, rfl, rfl, fun _ => rfl, ?_, sameSetup_refl c, rfl, rfl, rfl, rfl,
      rfl, rfl, rfl, rfl, rfl⟩
    intro j p e hp
    simp at hp
  | cons p rest ih =>
    intro c pre post hpl hkeys hsorted hnodup hmark
    cases post with
    | nil => simp at hkeys
    | cons e0 post =>
      obtain ⟨k0, g0⟩ := e0
      simp only [List.map_cons, List.cons.injEq] at hkeys
      obtain ⟨hk0, hkeys⟩ := hkeys
      subst hk0
      obtain ⟨m0, hm0⟩ := Option.isSome_iff_exists.mp (hmark p (List.mem_cons_self _ _))
      have hlt : ∀ e ∈ pre, e.1 < p.id := by
        intro e he
        rw [List.map_append, List.pairwise_append] at hsorted
        exact hsorted.2.2 e.1 (List.mem_map_of_mem _ he) p.id (by simp)
      have hhand : ∀ e ∈ pre, e.2.handle ≠ g0.handle := by
        intro e he
        rw [List.map_append, List.nodup_append] at hnodup
        intro heq
        exact hnodup.2.2 (List.mem_map_of_mem (fun e => e.2.handle) he) (by simp [heq])
      obtain ⟨c1, g1, m1, hstep, hc1pl0, hc1mk, hc1set, e1, e2, e3, e4, e5, e6, e7, e8, e9,
        hg1h, hg1w, hg1r, hg1x, hm1b, hm1h⟩ :=
        updatePlanet_step L rotate c p pre post g0 m0 hpl hlt hhand hm0
      have hc1pl : c1.planets = (pre ++ [(p.id, g1)]) ++ post := by
        rw [hc1pl0]; simp
      have hmarkers1 : ∀ k, (QMap.find? k c1.planetMarkers).map (fun m => (m.boundingRectX, m.handle)) =
          (QMap.find? k c.planetMarkers).map (fun m => (m.boundingRectX, m.handle)) := by
        intro k
        rw [hc1mk, QMap.find?_insert]
        by_cases hk : k = p.id
        · subst hk
          simp [hm0, hm1b, hm1h]
        · simp [hk]
      have hsorted1 : (((pre ++ [(p.id, g1)]) ++ post).map Prod.fst).Pairwise (fun a b => a < b) := by
        simpa using hsorted
      have hnodup1 : (((pre ++ [(p.id, g1)]) ++ post).map (fun e => e.2.handle)).Nodup := by
        simpa [hg1h] using hnodup
      have hmark1 : ∀ q ∈ rest, (QMap.find? q.id c1.planetMarkers).isSome = true := by
        intro q hq
        have h1 := hmarkers1 q.id
        have h2 := hmark q (List.mem_cons_of_mem _ hq)
        obtain ⟨mq, hmq⟩ := Option.isSome_iff_exists.mp h2
        rw [hmq] at h1
        cases h3 : QMap.find? q.id c1.planetMarkers with
        | none => rw [h3] at h1; simp at h1
        | some _ => rfl
      obtain ⟨c2, post2, hrun, hpl2, hkeys2, hhand2, hmarkers2, hlay2, hset2, f1, f2, f3, f4, f5,
        f6, f7, f8, f9⟩ := ih c1 (pre ++ [(p.id, g1)]) post hc1pl hkeys hsorted1 hnodup1 hmark1
      have hcw : c1.clockwise = c.clockwise := hc1set.2.2.2.1
      refine ⟨c2, (p.id, g1) :: post2, by simp only [updatePlanets, hstep, hrun],
        by rw [hpl2]; simp, by simp [hkeys2], by simp [hhand2, hg1h, hg1w],
        fun k => (hmarkers2 k).trans (hmarkers1 k), ?_, sameSetup_trans hc1set hset2,
        f1.trans e1, f2.trans e2, f3.trans e3, f4.trans e4, f5.trans e5, f6.trans e6,
        f7.trans e7, f8.trans e8, f9.trans e9⟩
      intro j q e hq he
      cases j with
      | zero =>
        simp only [List.getElem?_cons_zero, Option.some.injEq] at hq he
        subst hq
        subst he
        have h1 := hmarkers2 p.id
        rw [hc1mk, QMap.find?_insert, if_pos rfl] at h1
        cases h3 : QMap.find? p.id c2.planetMarkers with
        | none => rw [h3] at h1; simp at h1
        | some m2 =>
          rw [h3] at h1
          simp only [Option.map_some', Option.some.injEq, Prod.mk.injEq] at h1
          refine ⟨m2, rfl, hg1r, ?_⟩
          rw [hg1x]
          simp only [List.take_zero, List.append_nil]
          rw [normalPlanetPosX_congr g0 _ m0 m2 hg1w (h1.1.trans hm1b)]
      | succ j =>
        simp only [List.getElem?_cons_succ] at hq he
        obtain ⟨m, hm, hr, hx⟩ := hlay2 j q e hq he
        refine ⟨m, hm, by rw [hr, hcw], ?_⟩
        rw [hx]
        simp

end Chart
end Zodiac

namespace Zodiac
namespace Chart

/-! ## The updater: aspects -/

theorem set_concat {α : Type} (l : List α) (a b : α) :
    (l ++ [a]).set l.length b = l ++ [b] := by
  induction l with
  | nil => rfl
  | cons x rest ih => simp [ih]

theorem updateAspect_append (L : Lib) (c : Chart) (asp : Aspect) (line : QLineF)
    (hline : aspectLine L c.planetMarkers asp = some line) :
    ∃ c1 a1, updateAspect L c c.aspects.length asp = some c1 ∧
      c1.aspects = c.aspects ++ [a1] ∧ a1.handle = c.nextHandle ∧ a1.line = line ∧
      a1.pen = aspectPen asp ∧ a1.toolTip = L.describeAspect asp ∧
      c1.nextHandle = c.nextHandle + 1 ∧ sameSetup c c1 ∧ c1.circle = c.circle ∧
      c1.cuspides = c.cuspides ∧ c1.cuspideLabels = c.cuspideLabels ∧
      c1.signBorders = c.signBorders ∧ c1.signIcons = c.signIcons ∧
      c1.planets = c.planets ∧ c1.planetMarkers = c.planetMarkers ∧
      c1.aspectMarkers = c.aspectMarkers ∧ c1.emptyScene = c.emptyScene := by
  simp only [updateAspect, hline, ge_iff_le, le_refl, if_true, List.getElem?_concat_length]
  by_cases h : "" = L.describeAspect asp
  · simp only [ne_eq, h, not_true_eq_false, if_false]
    exact ⟨_, _, rfl, rfl, rfl, rfl, rfl, h.symm ▸ rfl, rfl, by simp [sameSetup], rfl, rfl, rfl,
      rfl, rfl, rfl, rfl, rfl, rfl⟩
  · simp only [ne_eq, h, not_false_eq_true, if_true, set_concat]
    exact ⟨_, _, rfl, rfl, rfl, rfl, rfl, rfl, rfl, by simp [sameSetup], rfl, rfl, rfl,
      rfl, rfl, rfl, rfl, rfl, rfl⟩

theorem getElem?_split {α : Type} (l r : List α) (a : α) :
    (l ++ a :: r)[l.length]? = some a := by
  induction l with
  | nil => simp
  | cons x rest ih => simpa using ih

theorem set_split {α : Type} (l r : List α) (a b : α) :
    (l ++ a :: r).set l.length b = l ++ b :: r := by
  induction l with
  | nil => rfl
  | cons x rest ih => simp [ih]

theorem updateAspect_reuse (L : Lib) (c : Chart) (asp : Aspect) (line : QLineF)
    (done todo : List LineItem) (t : LineItem)
    (hsplit : c.aspects = done ++ t :: todo)
    (hline : aspectLine L c.planetMarkers asp = some line) :
    ∃ c1 a1, updateAspect L c done.length asp = some c1 ∧
      c1.aspects = done ++ a1 :: todo ∧ a1.handle = t.handle ∧ a1.line = line ∧
      a1.pen = aspectPen asp ∧ a1.toolTip = L.describeAspect asp ∧
      c1.nextHandle = c.nextHandle ∧ sameSetup c c1 ∧ c1.circle = c.circle ∧
      c1.cuspides = c.cuspides ∧ c1.cuspideLabels = c.cuspideLabels ∧
      c1.signBorders = c.signBorders ∧ c1.signIcons = c.signIcons ∧
      c1.planets = c.planets ∧ c1.planetMarkers = c.planetMarkers ∧
      c1.aspectMarkers = c.aspectMarkers ∧ c1.emptyScene = c.emptyScene := by
  have hlen : ¬ (done.length ≥ (done ++ t :: todo).length) := by simp
  simp only [updateAspect, hline, hsplit, if_neg hlen, getElem?_split, Option.map_some',
    set_split]
  by_cases h : t.toolTip = L.describeAspect asp
  · simp only [ne_eq, h, not_true_eq_false, if_false]
    exact ⟨_, _, rfl, rfl, rfl, rfl, rfl, rfl, rfl, by simp [sameSetup], rfl, rfl, rfl,
      rfl, rfl, rfl, rfl, rfl, rfl⟩
  · simp only [ne_eq, h, not_false_eq_true, if_true, set_split]
    exact ⟨_, _, rfl, rfl, rfl, rfl, rfl, rfl, rfl, by simp [sameSetup], rfl, rfl, rfl,
      rfl, rfl, rfl, rfl, rfl, rfl⟩

theorem updateAspects_spec (L : Lib) (asps : List Aspect) :
    ∀ (c : Chart) (done todo : List LineItem), c.aspects = done ++ todo →
      (∀ asp ∈ asps, (aspectLine L c.planetMarkers asp).isSome = true) →
      ∃ c1 new, updateAspects L done.length asps c = some (done.length + asps.length, c1) ∧
        c1.aspects = done ++ new ++ todo.drop asps.length ∧
        new.map (fun a => (some a.line, a.pen, a.toolTip)) =
          asps.map (fun asp =>
            (aspectLine L c.planetMarkers asp, aspectPen asp, L.describeAspect asp)) ∧
        new.map (fun a => a.handle) = (todo.map (fun a => a.handle)).take asps.length ++
          List.range' c.nextHandle (asps.length - todo.length) ∧
        c1.nextHandle = c.nextHandle + (asps.length - todo.length) ∧
        sameSetup c c1 ∧ c1.circle = c.circle ∧
        c1.cuspides = c.cuspides ∧ c1.cuspideLabels = c.cuspideLabels ∧
        c1.signBorders = c.signBorders ∧ c1.signIcons = c.signIcons ∧
        c1.planets = c.planets ∧ c1.planetMarkers = c.planetMarkers ∧
        c1.aspectMarkers = c.aspectMarkers ∧ c1.emptyScene = c.emptyScene := by
  induction asps with
  | nil =>
    intro c done todo hsplit _
    exact ⟨c, [], by simp [updateAspects], by simpa using hsplit, rfl, by simp, by simp,
      sameSetup_refl c, rfl, rfl, rfl, rfl, rfl, rfl, rfl, rfl, rfl⟩
  | cons asp rest ih =>
    intro c done todo hsplit hlines
    obtain ⟨line, hline⟩ := Option.isSome_iff_exists.mp (hlines asp (List.mem_cons_self _ _))
    cases todo with
    | nil =>
      have hlen : done.length = c.aspects.length := by rw [hsplit]; simp
      obtain ⟨c1, a1, hstep, hasp, hh, hl, hp, ht, hn, s0, f1, f2, f3, f4, f5, f6, f7, f8, f9⟩ :=
        updateAspect_append L c asp line hline
      rw [← hlen] at hstep
      have hsplit1 : c1.aspects = (done ++ [a1]) ++ [] := by
        rw [hasp, hsplit]; simp
      have hlines1 : ∀ x ∈ rest, (aspectLine L c1.planetMarkers x).isSome = true := by
        intro x hx
        rw [f7]
        exact hlines x (List.mem_cons_of_mem _ hx)
      obtain ⟨c2, new, hrun, hasp2, hdata, hhand, hnext, s1, g1, g2, g3, g4, g5, g6, g7, g8,
        g9⟩ := ih c1 (done ++ [a1]) [] hsplit1 hlines1
      have hlen1 : (done ++ [a1]).length = done.length + 1 := by simp
      rw [hlen1] at hrun
      refine ⟨c2, a1 :: new, ?_, ?_, ?_, ?_, ?_, sameSetup_trans s0 s1, g1.trans f1,
        g2.trans f2, g3.trans f3, g4.trans f4, g5.trans f5, g6.trans f6, g7.trans f7,
        g8.trans f8, g9.trans f9⟩
      · simp only [updateAspects, hstep, hrun, List.length_cons]
        congr 2
        omega
      · rw [hasp2]; simp
      · simp only [List.map_cons, hdata, hl, hp, ht, hline, f7]
      · simp only [List.map_cons, hhand, hh, hn, List.map_nil, List.take_nil, List.nil_append,
          List.length_nil, Nat.sub_zero, List.length_cons]
        rfl
      · rw [hnext, hn]
        simp only [List.length_nil, Nat.sub_zero, List.length_cons]
        omega
    | cons t todo =>
      obtain ⟨c1, a1, hstep, hasp, hh, hl, hp, ht, hn, s0, f1, f2, f3, f4, f5, f6, f7, f8, f9⟩ :=
        updateAspect_reuse L c asp line done todo t hsplit hline
      have hsplit1 : c1.aspects = (done ++ [a1]) ++ todo := by
        rw [hasp]; simp
      have hlines1 : ∀ x ∈ rest, (aspectLine L c1.planetMarkers x).isSome = true := by
        intro x hx
        rw [f7]
        exact hlines x (List.mem_cons_of_mem _ hx)
      obtain ⟨c2, new, hrun, hasp2, hdata, hhand, hnext, s1, g1, g2, g3, g4, g5, g6, g7, g8,
        g9⟩ := ih c1 (done ++ [a1]) todo hsplit1 hlines1
      have hlen1 : (done ++ [a1]).length = done.length + 1 := by simp
      rw [hlen1] at hrun
      refine ⟨c2, a1 :: new, ?_, ?_, ?_, ?_, ?_, sameSetup_trans s0 s1, g1.trans f1,
        g2.trans f2, g3.trans f3, g4.trans f4, g5.trans f5, g6.trans f6, g7.trans f7,
        g8.trans f8, g9.trans f9⟩
      · simp only [updateAspects, hstep, hrun, List.length_cons]
        congr 2
        omega
      · rw [hasp2]; simp
      · simp only [List.map_cons, hdata, hl, hp, ht, hline, f7]
      · simp only [List.map_cons, hhand, hh, hn, List.length_cons, List.take_succ_cons,
          List.cons_append, Nat.add_sub_add_right]
      · rw [hnext, hn]
        simp only [List.length_cons, Nat.add_sub_add_right]

theorem removeUnused_spec (keep extra : List LineItem) :
    removeUnused keep.length (keep ++ extra) = some keep := by
  generalize hn : extra.length = n
  induction n generalizing extra with
  | zero =>
    have : extra = [] := List.length_eq_zero.mp hn
    subst this
    unfold removeUnused
    simp
  | succ n ih =>
    have hne : extra ≠ [] := by
      intro h; subst h; simp at hn
    have hlen : ¬ (keep.length = (keep ++ extra).length) := by
      simp only [List.length_append]
      omega
    unfold removeUnused
    simp only [if_neg hlen]
    cases hsplit : keep ++ extra with
    | nil =>
      have : extra = [] := (List.append_eq_nil.mp hsplit).2
      exact absurd this hne
    | cons a r =>
      simp only
      rw [← hsplit, List.dropLast_append_of_ne_nil _ hne]
      apply ih
      simp [hn]

theorem updateAspectLines_spec (L : Lib) (asps : List Aspect) (c : Chart)
    (hlines : ∀ asp ∈ asps, (aspectLine L c.planetMarkers asp).isSome = true) :
    ∃ c1, updateAspectLines L asps c = some c1 ∧
      c1.aspects.length = asps.length ∧
      c1.aspects.map (fun a => (some a.line, a.pen, a.toolTip)) =
        asps.map (fun asp =>
          (aspectLine L c.planetMarkers asp, aspectPen asp, L.describeAspect asp)) ∧
      c1.aspects.map (fun a => a.handle) =
        (c.aspects.map (fun a => a.handle)).take asps.length ++
          List.range' c.nextHandle (asps.length - c.aspects.length) ∧
      c1.nextHandle = c.nextHandle + (asps.length - c.aspects.length) ∧
      sameSetup c c1 ∧ c1.circle = c.circle ∧
      c1.cuspides = c.cuspides ∧ c1.cuspideLabels = c.cuspideLabels ∧
      c1.signBorders = c.signBorders ∧ c1.signIcons = c.signIcons ∧
      c1.planets = c.planets ∧ c1.planetMarkers = c.planetMarkers ∧
      c1.aspectMarkers = c.aspectMarkers ∧ c1.emptyScene = c.emptyScene := by
  obtain ⟨c1, new, hrun, hasp, hdata, hhand, hnext, s0, f1, f2, f3, f4, f5, f6, f7, f8, f9⟩ :=
    updateAspects_spec L asps c [] c.aspects rfl hlines
  have hlen : new.length = asps.length := by
    simpa using congrArg List.length hdata
  simp only [List.length_nil, Nat.zero_add, List.nil_append] at hrun hasp
  have hrem : removeUnused asps.length c1.aspects = some new := by
    rw [hasp, ← hlen]
    exact removeUnused_spec new _
  refine ⟨{ c1 with aspects := new }, by simp only [updateAspectLines, hrun, hrem], hlen,
    hdata, hhand, hnext, ?_, f1, f2, f3, f4, f5, f6, f7, f8, f9⟩
  simpa [sameSetup] using s0

/-- C4: the aspect part of `updateScene`, for any previous list of aspect lines
and any current aspect list between planets that have a marker, leaves exactly one
line for each current aspect, line `i` carrying the end points, the pen and the
tool tip of aspect `i`; the lines kept are the first ones of the previous list
with their identity, the others are new objects, and a previous line beyond the
new count is gone.  Hence after further updates the lines are those of the last
aspect list only. -/
theorem aspect_lines_follow (L : Lib) (asps : List Aspect) (c : Chart)
    (hlines : ∀ asp ∈ asps, (aspectLine L c.planetMarkers asp).isSome = true) :
    ∃ c1, updateAspectLines L asps c = some c1 ∧
      c1.aspects.length = asps.length ∧
      c1.aspects.map (fun a => (some a.line, a.pen, a.toolTip)) =
        asps.map (fun asp =>
          (aspectLine L c.planetMarkers asp, aspectPen asp, L.describeAspect asp)) ∧
      c1.aspects.map (fun a => a.handle) =
        (c.aspects.map (fun a => a.handle)).take asps.length ++
          List.range' c.nextHandle (asps.length - c.aspects.length) ∧
      (c1.aspects.map (fun a => a.handle)).take (min c.aspects.length asps.length) =
        (c.aspects.map (fun a => a.handle)).take (min c.aspects.length asps.length) ∧
      (asps.length < c.aspects.length →
        c1.aspects.map (fun a => a.handle) =
          (c.aspects.map (fun a => a.handle)).take asps.length) ∧
      c1.planetMarkers = c.planetMarkers ∧
      (∀ asps2 asps3 : List Aspect,
        (∀ asp ∈ asps2 ++ asps3, (aspectLine L c.planetMarkers asp).isSome = true) →
        ∃ c2 c3, updateAspectLines L asps2 c1 = some c2 ∧
          updateAspectLines L asps3 c2 = some c3 ∧
          c3.aspects.length = asps3.length ∧
          c3.aspects.map (fun a => a.toolTip) = asps3.map (fun asp => L.describeAspect asp)) := by
  obtain ⟨c1, hrun, hlen, hdata, hhand, hnext, s0, f1, f2, f3, f4, f5, f6, f7, f8, f9⟩ :=
    updateAspectLines_spec L asps c hlines
  refine ⟨c1, hrun, hlen, hdata, hhand, ?_, ?_, f7, ?_⟩
  · rw [hhand, List.take_append_eq_append_take]
    have h1 : min c.aspects.length asps.length -
        ((c.aspects.map (fun a => a.handle)).take asps.length).length = 0 := by
      simp only [List.length_take, List.length_map]
      omega
    rw [h1, List.take_zero, List.append_nil, List.take_take]
    congr 1
    omega
  · intro hlt
    have h1 : asps.length - c.aspects.length = 0 := by omega
    rw [hhand, h1]
    simp
  · intro asps2 asps3 h23
    obtain ⟨c2, hrun2, _, _, _, _, _, _, _, _, _, _, _, g7, _, _⟩ :=
      updateAspectLines_spec L asps2 c1
        (by intro a ha; rw [f7]; exact h23 a (List.mem_append_left _ ha))
    obtain ⟨c3, hrun3, hlen3, hdata3, _⟩ :=
      updateAspectLines_spec L asps3 c2
        (by intro a ha; rw [g7, f7]; exact h23 a (List.mem_append_right _ ha))
    refine ⟨c2, c3, hrun2, hrun3, hlen3, ?_⟩
    have := congrArg (List.map (fun t : Option QLineF × QPen × String => t.2.2)) hdata3
    simpa [List.map_map, Function.comp_def] using this

end Chart
end Zodiac

namespace Zodiac
namespace Chart

/-! ## The updater as a whole -/

theorem avoidIntersection_handle (g : TextItem) (l : List TextItem) :
    (avoidIntersection g l).handle = g.handle := by
  induction l generalizing g with
  | nil => rfl
  | cons o rest ih =>
    simp only [avoidIntersection]
    split_ifs
    · rfl
    · rw [ih]; rfl
    · rw [ih]

theorem updatePlanet_some (L : Lib) (rotate : ℚ) (c : Chart) (p : Planet)
    (h1 : (QMap.find? p.id c.planets).isSome = true)
    (h2 : (QMap.find? p.id c.planetMarkers).isSome = true) :
    ∃ c1, updatePlanet L rotate c p = some c1 ∧ sameSetup c c1 ∧ c1.circle = c.circle ∧
      c1.cuspides = c.cuspides ∧ c1.cuspideLabels = c.cuspideLabels ∧
      c1.signBorders = c.signBorders ∧ c1.signIcons = c.signIcons ∧
      c1.aspects = c.aspects ∧ c1.aspectMarkers = c.aspectMarkers ∧
      c1.emptyScene = c.emptyScene ∧ c1.nextHandle = c.nextHandle ∧
      (∀ k, (QMap.find? k c1.planets).map (fun g => g.handle) =
        (QMap.find? k c.planets).map (fun g => g.handle)) ∧
      (∀ k, (QMap.find? k c1.planetMarkers).map (fun m => m.handle) =
        (QMap.find? k c.planetMarkers).map (fun m => m.handle)) := by
  obtain ⟨g, hg⟩ := Option.isSome_iff_exists.mp h1
  obtain ⟨m, hm⟩ := Option.isSome_iff_exists.mp h2
  simp only [updatePlanet, hg, hm]
  refine ⟨_, rfl, by simp [sameSetup], rfl, rfl, rfl, rfl, rfl, rfl, rfl, rfl, rfl, ?_, ?_⟩
  · intro k
    simp only [QMap.find?_insert]
    by_cases hk : k = p.id
    · subst hk; simp [hg, avoidIntersection_handle]
    · simp [hk]
  · intro k
    simp only [QMap.find?_insert]
    by_cases hk : k = p.id
    · subst hk; simp [hm]
    · simp [hk]

theorem isSome_of_map_eq {α β : Type} (f : α → β) (a b : Option α)
    (h : a.map f = b.map f) : a.isSome = b.isSome := by
  cases a <;> cases b <;> simp at h ⊢

theorem updatePlanets_some (L : Lib) (rotate : ℚ) (ps : List Planet) :
    ∀ c : Chart,
      (∀ p ∈ ps, (QMap.find? p.id c.planets).isSome = true ∧
        (QMap.find? p.id c.planetMarkers).isSome = true) →
      ∃ c1, updatePlanets L rotate ps c = some c1 ∧ sameSetup c c1 ∧ c1.circle = c.circle ∧
        c1.cuspides = c.cuspides ∧ c1.cuspideLabels = c.cuspideLabels ∧
        c1.signBorders = c.signBorders ∧ c1.signIcons = c.signIcons ∧
        c1.aspects = c.aspects ∧ c1.aspectMarkers = c.aspectMarkers ∧
        c1.emptyScene = c.emptyScene ∧ c1.nextHandle = c.nextHandle ∧
        (∀ k, (QMap.find? k c1.planets).map (fun g => g.handle) =
          (QMap.find? k c.planets).map (fun g => g.handle)) ∧
        (∀ k, (QMap.find? k c1.planetMarkers).map (fun m => m.handle) =
          (QMap.find? k c.planetMarkers).map (fun m => m.handle)) := by
  induction ps with
  | nil =>
    intro c _
    exact ⟨c, rfl, sameSetup_refl c, rfl, rfl, rfl, rfl, rfl, rfl, rfl, rfl, rfl,
      fun _ => rfl, fun _ => rfl⟩
  | cons p rest ih =>
    intro c h
    obtain ⟨hp1, hp2⟩ := h p (List.mem_cons_self _ _)
    obtain ⟨c1, e, s0, a1, a2, a3, a4, a5, a6, a7, a8, a9, a10, a11⟩ :=
      updatePlanet_some L rotate c p hp1 hp2
    obtain ⟨c2, e', s1, b1, b2, b3, b4, b5, b6, b7, b8, b9, b10, b11⟩ := ih c1 (by
      intro q hq
      rw [isSome_of_map_eq _ _ _ (a10 q.id), isSome_of_map_eq _ _ _ (a11 q.id)]
      exact h q (List.mem_cons_of_mem _ hq))
    exact ⟨c2, by simp only [updatePlanets, e, e'], sameSetup_trans s0 s1, b1.trans a1,
      b2.trans a2, b3.trans a3, b4.trans a4, b5.trans a5, b6.trans a6, b7.trans a7,
      b8.trans a8, b9.trans a9, fun k => (b10 k).trans (a10 k), fun k => (b11 k).trans (a11 k)⟩

theorem aspectLine_isSome (L : Lib) (markers : QMap EllipseItem) (asp : Aspect)
    (h1 : (QMap.find? asp.planet1.id markers).isSome = true)
    (h2 : (QMap.find? asp.planet2.id markers).isSome = true) :
    (aspectLine L markers asp).isSome = true := by
  obtain ⟨m1, hm1⟩ := Option.isSome_iff_exists.mp h1
  obtain ⟨m2, hm2⟩ := Option.isSome_iff_exists.mp h2
  simp [aspectLine, hm1, hm2]

end Chart
end Zodiac

namespace Zodiac
namespace Chart

/-! ## Notifications and settings -/

theorem rotateOffset_congr {c c1 : Chart} (h : sameSetup c c1) :
    rotateOffset c1 = rotateOffset c := by
  obtain ⟨h1, _, h3, h4, _⟩ := h
  simp [rotateOffset, h1, h3, h4]

theorem ready_createScene (L : Lib) (c : Chart) (h : consistent c.file) :
    ready (createScene L c) := by
  obtain ⟨s0, _, hring, hcusp, hlab, hicons, _, _, _, hpl, hmk⟩ := createScene_spec L c
  obtain ⟨hsigns, hasp⟩ := h
  have hfile : (createScene L c).file = c.file := s0.1
  refine ⟨?_, hring, by omega, by omega, by omega, ?_, ?_⟩
  · rw [rotateOffset_congr s0]
    simp only [rotateOffset]
    cases hs : c.file.horoscope.zodiac.signs with
    | nil => rw [hs] at hsigns; simp at hsigns
    | cons s rest => split_ifs <;> simp
  · intro p hp
    rw [hfile] at hp
    have hmem : p.id ∈ c.file.horoscope.planets.map (fun p => p.id) := List.mem_map_of_mem _ hp
    rw [hpl, hmk]
    simp [hmem]
  · intro asp ha
    rw [hfile] at ha
    obtain ⟨h1, h2⟩ := hasp asp ha
    rw [hmk, hmk]
    simp [h1, h2]

theorem clearScene_idem (c : Chart) : clearScene (clearScene c) = clearScene c := rfl

end Chart
end Zodiac

namespace Zodiac
namespace Chart

/-! ## The flag of the empty scene -/

theorem updateCuspides_emptyScene (L : Lib) (rotate : ℚ) (is : List (Fin 12)) :
    ∀ c c1 : Chart, updateCuspides L rotate is c = some c1 → c1.emptyScene = c.emptyScene := by
  induction is with
  | nil =>
    intro c c1 h
    simp only [updateCuspides, Option.some.injEq] at h
    rw [h]
  | cons i rest ih =>
    intro c c1 h
    simp only [updateCuspides] at h
    cases hi : updateCuspide L rotate c i with
    | none => rw [hi] at h; simp at h
    | some c2 =>
      rw [hi] at h
      have e : c2.emptyScene = c.emptyScene := by
        simp only [updateCuspide] at hi
        split at hi
        · simp only [Option.some.injEq] at hi
          rw [← hi]
        · simp at hi
      exact (ih c2 c1 h).trans e

theorem updatePlanets_emptyScene (L : Lib) (rotate : ℚ) (ps : List Planet) :
    ∀ c c1 : Chart, updatePlanets L rotate ps c = some c1 → c1.emptyScene = c.emptyScene := by
  induction ps with
  | nil =>
    intro c c1 h
    simp only [updatePlanets, Option.some.injEq] at h
    rw [h]
  | cons p rest ih =>
    intro c c1 h
    simp only [updatePlanets] at h
    cases hp : updatePlanet L rotate c p with
    | none => rw [hp] at h; simp at h
    | some c2 =>
      rw [hp] at h
      have e : c2.emptyScene = c.emptyScene := by
        simp only [updatePlanet] at hp
        split at hp
        · simp only [Option.some.injEq] at hp
          rw [← hp]
        · simp at hp
      exact (ih c2 c1 h).trans e

theorem updateAspect_emptyScene (L : Lib) (c c1 : Chart) (i : ℕ) (asp : Aspect)
    (h : updateAspect L c i asp = some c1) : c1.emptyScene = c.emptyScene := by
  simp only [updateAspect] at h
  split at h
  · simp at h
  · split at h
    · simp at h
    · rename_i c2 hc2
      have e2 : c2.emptyScene = c.emptyScene := by
        split_ifs at hc2
        · simp only [Option.some.injEq] at hc2
          rw [← hc2]
        · cases ha : c.aspects[i]? with
          | none => rw [ha] at hc2; simp at hc2
          | some a =>
            rw [ha] at hc2
            simp only [Option.map_some', Option.some.injEq] at hc2
            rw [← hc2]
      split at h
      · simp at h
      · split_ifs at h
        · simp only [Option.some.injEq] at h
          rw [← h]
          exact e2
        · simp only [Option.some.injEq] at h
          rw [← h]
          exact e2

theorem updateAspects_emptyScene (L : Lib) (asps : List Aspect) :
    ∀ (i j : ℕ) (c c1 : Chart), updateAspects L i asps c = some (j, c1) →
      c1.emptyScene = c.emptyScene := by
  induction asps with
  | nil =>
    intro i j c c1 h
    simp only [updateAspects, Option.some.injEq, Prod.mk.injEq] at h
    rw [h.2]
  | cons asp rest ih =>
    intro i j c c1 h
    simp only [updateAspects] at h
    cases ha : updateAspect L c i asp with
    | none => rw [ha] at h; simp at h
    | some c2 =>
      rw [ha] at h
      exact (ih (i + 1) j c2 c1 h).trans (updateAspect_emptyScene L c c2 i asp ha)

theorem updateScene_emptyScene (L : Lib) (c c1 : Chart) (h : updateScene L c = some c1) :
    c1.emptyScene = c.emptyScene := by
  simp only [updateScene] at h
  split at h
  · rename_i rotate ring hr hc
    cases h2 : updateCuspides L rotate (List.finRange 12)
        { c with circle := some { ring with rotation := rotate } } with
    | none => rw [h2] at h; simp at h
    | some c2 =>
      rw [h2] at h
      simp only at h
      cases h3 : updatePlanets L rotate c2.file.horoscope.planets c2 with
      | none => rw [h3] at h; simp at h
      | some c3 =>
        rw [h3] at h
        simp only [updateAspectLines] at h
        cases h4 : updateAspects L 0 c3.file.horoscope.aspects c3 with
        | none => rw [h4] at h; simp at h
        | some r =>
          obtain ⟨j, c4⟩ := r
          rw [h4] at h
          simp only at h
          cases h5 : removeUnused j c4.aspects with
          | none => rw [h5] at h; simp at h
          | some rest =>
            rw [h5] at h
            simp only [Option.some.injEq] at h
            rw [← h]
            show c4.emptyScene = _
            rw [updateAspects_emptyScene L _ 0 j c3 c4 h4,
              updatePlanets_emptyScene L rotate _ c2 c3 h3,
              updateCuspides_emptyScene L rotate _ _ c2 h2]
  · simp at h

/-- A chart whose flag `emptyScene` is raised holds no visual element: this holds
of a chart on which no scene was built yet and of a cleared chart, and it is kept
by `fileUpdated` and by `applySettings`. -/
theorem emptyScene_means_empty (L : Lib) (c c1 : Chart)
    (hclean : c.emptyScene = true → clearScene c = c) :
    (({ file := c.file } : Chart).emptyScene = true →
      clearScene { file := c.file } = { file := c.file }) ∧
    ((clearScene c).emptyScene = true → clearScene (clearScene c) = clearScene c) ∧
    (∀ members, fileUpdated L c members = some c1 →
      c1.emptyScene = true → clearScene c1 = c1) ∧
    (∀ s, applySettings L c s = some c1 → c1.emptyScene = true → clearScene c1 = c1) := by
  have hcs : ∀ x : Chart, (createScene L x).emptyScene = false :=
    fun x => (createScene_spec L x).2.1
  have hbind : ∀ x cb : Chart, bindFile x = some cb →
      cb.emptyScene = x.emptyScene ∧ (x.circle.isSome = true) := by
    intro x cb hb
    simp only [bindFile] at hb
    split at hb
    · simp at hb
    · rename_i ring hr
      simp only [Option.some.injEq] at hb
      rw [← hb]
      exact ⟨rfl, by rw [hr]; rfl⟩
  have htail : ∀ (x x1 : Chart) (members : Members),
      (match bindFile x with
        | none => none
        | some cb => if members.positional then updateScene L cb else some cb) = some x1 →
      x1.emptyScene = x.emptyScene := by
    intro x x1 members h
    cases hb : bindFile x with
    | none => rw [hb] at h; simp at h
    | some cb =>
      rw [hb] at h
      simp only at h
      have e1 := (hbind _ cb hb).1
      by_cases hp : members.positional = true
      · rw [if_pos hp] at h
        rw [updateScene_emptyScene L cb x1 h, e1]
      · rw [if_neg hp] at h
        simp only [Option.some.injEq] at h
        rw [← h, e1]
  have hfu : ∀ (x x1 : Chart) (members : Members),
      (x.emptyScene = true → clearScene x = x) → fileUpdated L x members = some x1 →
      x1.emptyScene = true → clearScene x1 = x1 := by
    intro x x1 members hx h he
    by_cases h1 : x.file.isEmpty = true
    · simp only [fileUpdated, h1, if_true, Option.some.injEq] at h
      rw [← h] at he ⊢
      exact hx he
    · have h1' : x.file.isEmpty = false := by simpa using h1
      by_cases h2 : members.Zodiac = true
      · have e3 : (clearScene x).emptyScene = true := rfl
        simp only [fileUpdated, h1', h2, e3, if_true, Bool.false_eq_true, if_false] at h
        rw [htail _ x1 members h, hcs] at he
        simp at he
      · have h2' : members.Zodiac = false := by simpa using h2
        by_cases h3 : x.emptyScene = true
        · simp only [fileUpdated, h1', h2', h3, if_true, Bool.false_eq_true, if_false] at h
          rw [htail _ x1 members h, hcs] at he
          simp at he
        · have h3' : x.emptyScene = false := by simpa using h3
          simp only [fileUpdated, h1', h2', h3', Bool.false_eq_true, if_false] at h
          rw [htail _ x1 members h] at he
          exact absurd he h3
  refine ⟨fun _ => rfl, fun _ => rfl, fun members h he => hfu c c1 members hclean h he, ?_⟩
  intro s h he
  simp only [applySettings] at h
  split_ifs at h with h1
  · exact hfu (clearScene (readSettings c s)) c1 Members.All (fun _ => rfl) h he
  · simp only [Option.some.injEq] at h
    have h2 : (readSettings c s).emptyScene = true := by simpa using h1
    have h3 : c.emptyScene = true := h2
    rw [← h]
    have := hclean h3
    simp only [clearScene, readSettings] at this ⊢
    cases c
    simp_all

end Chart
end Zodiac

namespace Zodiac
namespace Chart

/-! ## Signs and planets in the scene -/

/-- C8 (amended): `createScene` draws the border of a sign that starts at `a`
degrees at the screen angle `-a * 3.1416 / 180`, and under a clockwise orientation
at `3.1416 + a * 3.1416 / 180`, that is 3.1416 minus the former; the glyph of the
sign is placed likewise from the middle angle of the sign, the end angle being
raised by 360 when it is below the start angle. -/
theorem createScene_sign_angles (L : Lib) (c : Chart) :
    (∀ sign : ZodiacSign, signRad c.clockwise sign =
      if c.clockwise then 3.1416 + sign.startAngle * 3.1416 / 180
      else -(sign.startAngle * 3.1416 / 180)) ∧
    (∀ sign : ZodiacSign, signRadMid c.clockwise sign =
      if c.clockwise then 3.1416 + signMidAngle sign * 3.1416 / 180
      else -(signMidAngle sign * 3.1416 / 180)) ∧
    (∀ sign : ZodiacSign, signMidAngle sign =
      if sign.startAngle > sign.endAngle then (sign.startAngle + (sign.endAngle + 360)) / 2
      else (sign.startAngle + sign.endAngle) / 2) ∧
    (createScene L c).signBorders.map (fun b => b.line) =
      c.signBorders.map (fun b => b.line) ++
        c.file.horoscope.zodiac.signs.map (fun s => signBorderLine L c (signRad c.clockwise s)) ∧
    (createScene L c).signIcons.map (fun t => t.pos) =
      c.signIcons.map (fun t => t.pos) ++
        c.file.horoscope.zodiac.signs.map (fun s => signIconPos L c (signRadMid c.clockwise s)
          (L.textWidth ⟨"Almagest", 16, true⟩ (String.singleton (Char.ofNat s.fontChar)))
          (L.textHeight ⟨"Almagest", 16, true⟩ (String.singleton (Char.ofNat s.fontChar)))) := by
  obtain ⟨_, _, _, _, _, _, hb, hi, _⟩ := createScene_spec L c
  refine ⟨?_, ?_, ?_, hb, hi⟩
  · intro sign
    by_cases h : c.clockwise = true
    · simp only [signRad, h, if_true]; ring
    · simp only [signRad, h, Bool.false_eq_true, if_false]; ring
  · intro sign
    by_cases h : c.clockwise = true
    · simp only [signRadMid, signMidAngle, h, if_true]; ring
    · simp only [signRadMid, signMidAngle, h, Bool.false_eq_true, if_false]; ring
  · intro sign
    by_cases h : sign.startAngle > sign.endAngle
    · simp only [signMidAngle, signEndAngle, h, if_true]; ring
    · simp only [signMidAngle, signEndAngle, h, if_false]; ring

/-- C8 (counterexample): for the sign that starts at 90 degrees and ends at 120,
under a clockwise orientation, the border is drawn at `3.1416 + 1.5708` and not at
`3.1416 - 90 * 3.1416 / 180`, and the glyph is not placed at
`3.1416 - 105 * 3.1416 / 180`. -/
theorem signRad_clockwise_counterexample :
    signRad true (sampleSign 3) = 3.1416 + 1.5708 ∧
    signRad true (sampleSign 3) ≠ 3.1416 - (sampleSign 3).startAngle * 3.1416 / 180 ∧
    signMidAngle (sampleSign 3) = 105 ∧
    signRadMid true (sampleSign 3) ≠ 3.1416 - signMidAngle (sampleSign 3) * 3.1416 / 180 := by
  refine ⟨?_, ?_, ?_, ?_⟩ <;>
    norm_num [signRad, signRadMid, signMidAngle, signEndAngle, sampleSign]

theorem updateScene_short (L : Lib) (c : Chart) (h : c.signIcons.length < 12) :
    updateScene L c = none := by
  simp only [updateScene]
  cases hr : rotateOffset c with
  | none => rfl
  | some rotate =>
    cases hc : c.circle with
    | none => rfl
    | some ring =>
      simp only
      rw [updateCuspides_short L rotate (List.finRange 12)
        { c with circle := some { ring with rotation := rotate } }
        ⟨⟨c.signIcons.length, h⟩, List.mem_finRange _, le_refl _⟩]

/-- C10: when the zodiac of the data source has fewer than twelve signs,
`createScene` on an emptied chart creates exactly one glyph for each sign, and the
`updateScene` that follows reaches for a sign glyph that does not exist: it
returns no chart, and so does the notification handler on a data source that is
not empty. -/
theorem updateScene_few_signs (L : Lib) (c : Chart)
    (h : c.file.horoscope.zodiac.signs.length < 12) :
    (createScene L (clearScene c)).signIcons.length = c.file.horoscope.zodiac.signs.length ∧
    updateScene L (createScene L (clearScene c)) = none ∧
    (c.file.isEmpty = false → fileUpdated L (clearScene c) Members.All = none) := by
  obtain ⟨_, _, _, _, _, hicons, _⟩ := createScene_spec L (clearScene c)
  have hlen : (createScene L (clearScene c)).signIcons.length =
      c.file.horoscope.zodiac.signs.length := by
    rw [hicons]
    show 0 + _ = _
    rw [Nat.zero_add]
    rfl
  refine ⟨hlen, updateScene_short L _ (by rw [hlen]; exact h), ?_⟩
  intro hfile
  have e2 : (clearScene c).file.isEmpty = false := hfile
  have e3 : (clearScene c).emptyScene = true := rfl
  have e4 : Members.All.Zodiac = true := rfl
  have e5 : Members.All.positional = true := rfl
  simp only [fileUpdated, e2, e3, e4, e5, clearScene_idem, if_true, Bool.false_eq_true, if_false]
  cases hb : bindFile (createScene L (clearScene c)) with
  | none => rfl
  | some cb =>
    simp only
    apply updateScene_short
    have : cb.signIcons = (createScene L (clearScene c)).signIcons := by
      simp only [bindFile] at hb
      split at hb
      · simp at hb
      · simp only [Option.some.injEq] at hb
        rw [← hb]
    rw [this, hlen]
    exact h

theorem updateScene_layout (L : Lib) (c : Chart) (hready : ready c)
    (hsorted : (c.file.horoscope.planets.map (fun p => p.id)).Pairwise (fun a b => a < b))
    (hkeys : c.planets.map Prod.fst = c.file.horoscope.planets.map (fun p => p.id))
    (hnodup : (c.planets.map (fun e => e.2.handle)).Nodup) :
    ∃ c1 rotate, updateScene L c = some c1 ∧ rotateOffset c = some rotate ∧
      c1.planets.map Prod.fst = c.file.horoscope.planets.map (fun p => p.id) ∧
      c1.planets.map (fun e => (e.2.handle, e.2.width)) =
        c.planets.map (fun e => (e.2.handle, e.2.width)) ∧
      (∀ (j : ℕ) (p : Planet) (e : PlanetId × TextItem),
        c.file.horoscope.planets[j]? = some p → c1.planets[j]? = some e →
        ∃ m, QMap.find? p.id c1.planetMarkers = some m ∧
          e.2.rotation = planetAngle c.clockwise p - rotate ∧
          e.2.pos.x = (normalPlanetPosX e.2 m : ℚ) -
            crowding e.2.rotation ((c1.planets.take j).map Prod.snd)) := by
  obtain ⟨hrot, hring, h1, h2, h3, hpl, hasp⟩ := hready
  obtain ⟨rotate, hrotate⟩ := Option.isSome_iff_exists.mp hrot
  obtain ⟨ring, hring⟩ := Option.isSome_iff_exists.mp hring
  obtain ⟨c2, e2, s2, a1, a2, a3, a4, a5, a6, a7, a8, a9, a10, a11⟩ :=
    updateCuspides_some L rotate (List.finRange 12)
      { c with circle := some { ring with rotation := rotate } } h1 h2 h3
  have f2 : c2.file = c.file := s2.1
  have cw2 : c2.clockwise = c.clockwise := s2.2.2.2.1
  have hpl2 : c2.planets = c.planets := a5
  have hmk2 : c2.planetMarkers = c.planetMarkers := a6
  obtain ⟨c3, post1, e3, hp3, hk3, hw3, hm3, hlay, s3, b1, b2, b3, b4, b5, b6, b7, b8, b9⟩ :=
    updatePlanets_layout L rotate c2.file.horoscope.planets c2 [] c2.planets rfl
      (by rw [hpl2, f2]; exact hkeys)
      (by simpa [hpl2, hkeys] using hsorted)
      (by simpa [hpl2] using hnodup)
      (by
        intro p hp
        rw [f2] at hp
        rw [hmk2]
        exact (hpl p hp).2)
  have f3 : c3.file = c.file := s3.1.trans f2
  obtain ⟨c4, e4, _, _, _, _, s4, d1, d2, d3, d4, d5, d6, d7, d8, d9⟩ :=
    updateAspectLines_spec L c3.file.horoscope.aspects c3 (by
      intro asp ha
      rw [f3] at ha
      obtain ⟨ha1, ha2⟩ := hasp asp ha
      have hsome : ∀ k, (QMap.find? k c3.planetMarkers).isSome =
          (QMap.find? k c.planetMarkers).isSome := by
        intro k
        rw [isSome_of_map_eq _ _ _ (hm3 k), hmk2]
      apply aspectLine_isSome
      · rw [hsome]; exact ha1
      · rw [hsome]; exact ha2)
  simp only [List.nil_append] at hp3 hlay
  refine ⟨c4, rotate, by simp only [updateScene, hrotate, hring, e2, e3, e4], hrotate, ?_, ?_, ?_⟩
  · rw [d6, hp3, hk3, f2]
  · rw [d6, hp3]
    have := hw3
    rw [hpl2] at this
    exact this
  · intro j p e hp he
    rw [d6, hp3] at he
    rw [← f2] at hp
    obtain ⟨m, hm, hr, hx⟩ := hlay j p e hp he
    refine ⟨m, by rw [d7]; exact hm, by rw [hr, cw2], ?_⟩
    rw [hx, d6, hp3]

/-- C9 (amended): on a scene that holds what `updateScene` reaches for, whose
glyph map has the planets of the data source as keys in the order of the data
source (identities increasing) and distinct glyph objects, `updateScene` returns,
and the glyph of every planet `p` ends at the horizontal position
`normalPlanetPosX` less the sum of the widths of the glyphs of the planets
processed before `p` whose rotation is less than 10 away from that of `p`: each
such planet moves the glyph by the width of its own glyph, not by that of `p`. -/
theorem planet_glyph_layout (L : Lib) (c : Chart) (hready : ready c)
    (hsorted : (c.file.horoscope.planets.map (fun p => p.id)).Pairwise (fun a b => a < b))
    (hkeys : c.planets.map Prod.fst = c.file.horoscope.planets.map (fun p => p.id))
    (hnodup : (c.planets.map (fun e => e.2.handle)).Nodup) :
    ∃ c1 rotate, updateScene L c = some c1 ∧ rotateOffset c = some rotate ∧
      c1.planets.map Prod.fst = c.file.horoscope.planets.map (fun p => p.id) ∧
      c1.planets.map (fun e => (e.2.handle, e.2.width)) =
        c.planets.map (fun e => (e.2.handle, e.2.width)) ∧
      (∀ (j : ℕ) (p : Planet) (e : PlanetId × TextItem),
        c.file.horoscope.planets[j]? = some p → c1.planets[j]? = some e →
        ∃ m, QMap.find? p.id c1.planetMarkers = some m ∧
          e.2.rotation = planetAngle c.clockwise p - rotate ∧
          e.2.pos.x = (normalPlanetPosX e.2 m : ℚ) -
            crowding e.2.rotation ((c1.planets.take j).map Prod.snd)) :=
  updateScene_layout L c hready hsorted hkeys hnodup

end Chart
end Zodiac

namespace Zodiac
namespace Chart

/-! ## The rotation of the sign glyphs -/

theorem getElem?_set_eq_ite {α : Type} (l : List α) (i j : ℕ) (a : α) :
    (l.set i a)[j]? = if j = i then (l[j]?).map (fun _ => a) else l[j]? := by
  induction l generalizing i j with
  | nil => simp
  | cons x rest ih =>
    cases i with
    | zero =>
      cases j with
      | zero => simp
      | succ j => simp
    | succ i =>
      cases j with
      | zero => simp
      | succ j => simpa using ih i j

/-- The house loop turns the sign glyph at every index it visits to the negated
offset and leaves the other sign glyphs as they are. -/
theorem updateCuspides_signIcons (L : Lib) (rotate : ℚ) (is : List (Fin 12)) :
    ∀ (c c1 : Chart), updateCuspides L rotate is c = some c1 →
      ∀ j : ℕ, c1.signIcons[j]? =
        if j ∈ is.map (fun i => i.val) then
          (c.signIcons[j]?).map (fun t => { t with rotation := -rotate })
        else c.signIcons[j]? := by
  induction is with
  | nil =>
    intro c c1 h j
    simp only [updateCuspides, Option.some.injEq] at h
    rw [h]
    simp
  | cons i rest ih =>
    intro c c1 h j
    simp only [updateCuspides] at h
    cases hi : updateCuspide L rotate c i with
    | none => rw [hi] at h; simp at h
    | some c2 =>
      rw [hi] at h
      have e : c2.signIcons[j]? =
          if j = i.val then (c.signIcons[j]?).map (fun t => { t with rotation := -rotate })
          else c.signIcons[j]? := by
        simp only [updateCuspide] at hi
        split at hi
        · rename_i line label icon h1 h2 h3
          simp only [Option.some.injEq] at hi
          rw [← hi]
          simp only [getElem?_set_eq_ite]
          by_cases hj : j = i.val
          · subst hj
            simp [h3]
          · simp [hj]
        · simp at hi
      rw [ih c2 c1 h j, e]
      by_cases hj : j = i.val
      · by_cases hr : j ∈ rest.map (fun i => i.val)
        · have hm : j ∈ (i :: rest).map (fun i => i.val) := by simp [hj]
          rw [if_pos hr, if_pos hj, if_pos hm]
          cases c.signIcons[j]? <;> simp
        · have hm : j ∈ (i :: rest).map (fun i => i.val) := by simp [hj]
          rw [if_neg hr, if_pos hj, if_pos hm]
      · by_cases hr : j ∈ rest.map (fun i => i.val)
        · have hm : j ∈ (i :: rest).map (fun i => i.val) := by
            simp only [List.map_cons, List.mem_cons]
            exact Or.inr hr
          rw [if_pos hr, if_neg hj, if_pos hm]
        · have hm : j ∉ (i :: rest).map (fun i => i.val) := by
            simp only [List.map_cons, List.mem_cons, not_or]
            exact ⟨hj, hr⟩
          rw [if_neg hr, if_neg hj, if_neg hm]

/-- On a scene that holds what it reaches for, `updateScene` turns the first
twelve sign glyphs to the negated rotation offset and leaves every sign glyph
from index 12 on as it was. -/
theorem updateScene_signIcons (L : Lib) (c : Chart) (h : ready c) :
    ∃ c1 rotate, updateScene L c = some c1 ∧ rotateOffset c = some rotate ∧
      ∀ j : ℕ, c1.signIcons[j]? =
        if j < 12 then (c.signIcons[j]?).map (fun t => { t with rotation := -rotate })
        else c.signIcons[j]? := by
  obtain ⟨hrot, hring, h1, h2, h3, hpl, hasp⟩ := h
  obtain ⟨rotate, hrotate⟩ := Option.isSome_iff_exists.mp hrot
  obtain ⟨ring, hring⟩ := Option.isSome_iff_exists.mp hring
  obtain ⟨c2, e2, s2, a1, a2, a3, a4, a5, a6, a7, a8, a9, a10, a11⟩ :=
    updateCuspides_some L rotate (List.finRange 12)
      { c with circle := some { ring with rotation := rotate } } h1 h2 h3
  have f2 : c2.file = c.file := s2.1
  obtain ⟨c3, e3, s3, b1, b2, b3, b4, b5, b6, b7, b8, b9, b10, b11⟩ :=
    updatePlanets_some L rotate c2.file.horoscope.planets c2 (by
      intro p hp
      rw [a5, a6]
      rw [f2] at hp
      exact hpl p hp)
  have f3 : c3.file = c.file := s3.1.trans f2
  obtain ⟨c4, e4, _, _, _, _, s4, d1, d2, d3, d4, d5, d6, d7, d8, d9⟩ :=
    updateAspectLines_spec L c3.file.horoscope.aspects c3 (by
      intro asp ha
      rw [f3] at ha
      obtain ⟨ha1, ha2⟩ := hasp asp ha
      apply aspectLine_isSome
      · rw [isSome_of_map_eq _ _ _ (b11 _), a6]; exact ha1
      · rw [isSome_of_map_eq _ _ _ (b11 _), a6]; exact ha2)
  refine ⟨c4, rotate, by simp only [updateScene, hrotate, hring, e2, e3, e4], hrotate, ?_⟩
  intro j
  rw [d5, b5, updateCuspides_signIcons L rotate (List.finRange 12) _ c2 e2 j]
  have hmem : j ∈ (List.finRange 12).map (fun i => i.val) ↔ j < 12 := by
    constructor
    · intro hj
      obtain ⟨i, _, rfl⟩ := List.mem_map.mp hj
      exact i.isLt
    · intro hj
      exact List.mem_map.mpr ⟨⟨j, hj⟩, List.mem_finRange _, rfl⟩
  by_cases hj : j < 12
  · rw [if_pos (hmem.mpr hj), if_pos hj]
  · rw [if_neg (fun hm => hj (hmem.mp hm)), if_neg hj]

end Chart
end Zodiac

namespace Zodiac
namespace Chart

/-! ## The statements on the sample data -/

/-- The sample data source is consistent. -/
theorem consistent_sampleFile : consistent sampleFile := by
  unfold consistent
  decide

/-- The built sample chart holds everything `updateScene` reaches for. -/
theorem ready_builtChart : ready builtChart :=
  ready_createScene Lib.sample sampleChart consistent_sampleFile

/-- The aspect part on the built sample chart, for three aspects, then five, then
two: two lines remain, with the tool tips of the last two aspects. -/
theorem aspect_lines_follow_witness :
    (∀ asp ∈ sampleFile.horoscope.aspects,
      (aspectLine Lib.sample builtChart.planetMarkers asp).isSome = true) ∧
    ∃ c1, updateAspectLines Lib.sample sampleFile.horoscope.aspects builtChart = some c1 ∧
      c1.aspects.length = 3 ∧
      ∃ c2 c3, updateAspectLines Lib.sample fiveAspects c1 = some c2 ∧
        updateAspectLines Lib.sample twoAspects c2 = some c3 ∧
        c3.aspects.length = 2 ∧
        c3.aspects.map (fun a => a.toolTip) = ["Mars-Node", "Node-Sun"] := by
  have h1 : ∀ asp ∈ sampleFile.horoscope.aspects,
      (aspectLine Lib.sample builtChart.planetMarkers asp).isSome = true := by decide
  have h2 : ∀ asp ∈ fiveAspects ++ twoAspects,
      (aspectLine Lib.sample builtChart.planetMarkers asp).isSome = true := by decide
  obtain ⟨c1, r1, l1, _, _, _, _, _, chain⟩ :=
    aspect_lines_follow Lib.sample sampleFile.horoscope.aspects builtChart h1
  obtain ⟨c2, c3, r2, r3, l3, t3⟩ := chain fiveAspects twoAspects h2
  exact ⟨h1, c1, r1, l1, c2, c3, r2, r3, l3, t3⟩

/-- The sample chart on a zodiac of one sign: one sign glyph is created and the
update that follows returns no chart. -/
theorem updateScene_few_signs_witness :
    oneSignChart.file.horoscope.zodiac.signs.length < 12 ∧
    (createScene Lib.sample (clearScene oneSignChart)).signIcons.length = 1 ∧
    updateScene Lib.sample (createScene Lib.sample (clearScene oneSignChart)) = none :=
  ⟨by decide,
   (updateScene_few_signs Lib.sample oneSignChart (by decide)).1,
   (updateScene_few_signs Lib.sample oneSignChart (by decide)).2.1⟩

/-- The layout of the planet glyphs on the built sample chart. -/
theorem planet_glyph_layout_witness :
    ready builtChart ∧
    (builtChart.file.horoscope.planets.map (fun p => p.id)).Pairwise (fun a b => a < b) ∧
    builtChart.planets.map Prod.fst = builtChart.file.horoscope.planets.map (fun p => p.id) ∧
    (builtChart.planets.map (fun e => e.2.handle)).Nodup ∧
    ∃ c1 rotate, updateScene Lib.sample builtChart = some c1 ∧
      rotateOffset builtChart = some rotate ∧
      c1.planets.map Prod.fst = [0, 1, 2] := by
  have h2 : (builtChart.file.horoscope.planets.map (fun p => p.id)).Pairwise
      (fun a b => a < b) := by decide
  have h3 : builtChart.planets.map Prod.fst =
      builtChart.file.horoscope.planets.map (fun p => p.id) := by decide
  have h4 : (builtChart.planets.map (fun e => e.2.handle)).Nodup := by decide
  obtain ⟨c1, rotate, r, hr, hk, _⟩ :=
    planet_glyph_layout Lib.sample builtChart ready_builtChart h2 h3 h4
  exact ⟨ready_builtChart, h2, h3, h4, c1, rotate, r, hr, hk⟩

/-- C9 (counterexample): on the built sample chart the glyph of the second planet
is 16 wide, the one planet processed before it has a glyph 19 wide whose rotation
is less than 10 away, and after `updateScene` the glyph stands at its normal
position less 19, not less one time its own width. -/
theorem glyph_shift_counterexample :
    ∃ c1 g0 g m, updateScene Lib.sample builtChart = some c1 ∧
      c1.planets[0]? = some (0, g0) ∧ c1.planets[1]? = some (1, g) ∧
      QMap.find? 1 c1.planetMarkers = some m ∧
      |g.rotation - g0.rotation| < 10 ∧ g0.width = 19 ∧ g.width = 16 ∧
      g.pos.x = (normalPlanetPosX g m : ℚ) - 19 ∧
      g.pos.x ≠ (normalPlanetPosX g m : ℚ) - 1 * g.width := by
  have h2 : (builtChart.file.horoscope.planets.map (fun p => p.id)).Pairwise
      (fun a b => a < b) := by decide
  have h3 : builtChart.planets.map Prod.fst =
      builtChart.file.horoscope.planets.map (fun p => p.id) := by decide
  have h4 : (builtChart.planets.map (fun e => e.2.handle)).Nodup := by decide
  obtain ⟨c1, rotate, r, _, hk, hw, hlay⟩ :=
    updateScene_layout Lib.sample builtChart ready_builtChart h2 h3 h4
  have hk' : c1.planets.map Prod.fst = [0, 1, 2] := hk
  have hw' : c1.planets.map (fun e => (e.2.handle, e.2.width)) =
      [(49, 19), (51, 16), (53, 19)] := by
    rw [hw]; rfl
  match hc : c1.planets, hk', hw' with
  | [(k0, g0), (k1, g), (k2, g2)], hk', hw' =>
    simp only [List.map_cons, List.map_nil, List.cons.injEq, Prod.mk.injEq, and_true] at hk' hw'
    obtain ⟨rfl, rfl, rfl⟩ := hk'
    obtain ⟨⟨_, w0⟩, ⟨_, w1⟩, _⟩ := hw'
    obtain ⟨m0, _, hr0, _⟩ := hlay 0 { id := 0, name := "Sun", eclipticPosX := 10 } (0, g0)
      rfl (by rw [hc]; rfl)
    obtain ⟨m, hm, hr1, hx⟩ := hlay 1 { id := 1, name := "Node", eclipticPosX := 12, isReal := false }
      (1, g) rfl (by rw [hc]; rfl)
    simp only at hr0 hr1 hx
    have hclose : |g.rotation - g0.rotation| < 10 := by
      have hcw : builtChart.clockwise = false := rfl
      rw [hr0, hr1]
      norm_num [planetAngle, hcw]
    have hcrowd : crowding g.rotation ((c1.planets.take 1).map Prod.snd) = 19 := by
      rw [hc]
      simp only [List.take_succ_cons, List.take_zero, List.map_cons, List.map_nil,
        crowding_cons, crowding_nil, if_pos hclose, w0, add_zero]
    refine ⟨c1, g0, g, m, r, by rw [hc]; rfl, by rw [hc]; rfl, hm, hclose, w0, w1, ?_, ?_⟩
    · rw [hx, hcrowd]
    · rw [hx, hcrowd, w1]
      norm_num

end Chart
end Zodiac

namespace Zodiac
open RotatingCircleItem

/-- A move from about 355 degrees to about 5 degrees on the sample ring: the time
of the data source stays as it is. -/
theorem seam_move_reanchors_witness :
    crossesSeam (angle Lib.sample sampleRing ⟨-1000, 87⟩)
      (angle Lib.sample sampleRing ⟨-1000, -87⟩) = true ∧
    ∃ it1, sceneEvent Lib.sample sampleRing
        (QEvent.GraphicsSceneMouseMove ⟨-1000, 87⟩ ⟨-1000, -87⟩) = some (true, it1) ∧
      it1.dragAngle = angle Lib.sample sampleRing ⟨-1000, -87⟩ ∧ it1.dragDT = sampleFile.GMT ∧
      it1.time = some sampleFile.GMT :=
  ⟨by norm_num [crossesSeam, angle, sampleRing, Lib.sample, atanApprox, atan, FVal.div,
      FVal.mul, FVal.add, FVal.lt, FVal.gt],
   seam_move_reanchors Lib.sample sampleRing sampleFile ⟨-1000, 87⟩ ⟨-1000, -87⟩ rfl
    (by norm_num [crossesSeam, angle, sampleRing, Lib.sample, atanApprox, atan, FVal.div,
      FVal.mul, FVal.add, FVal.lt, FVal.gt])⟩

end Zodiac
